import Mathlib

/-!
# SF2File: translation of a sound bank into SoundFont2 record arrays

A shallow embedding of `src/external/vgmtrans/SF2File.cpp`: the envelope
conversion (`timeToTimecents`, `envelopeFromInfo`) and the constructor
`SF2File::SF2File`, one definition per chunk it builds.

Conventions of the embedding.

* `double` arithmetic is a parameter (`DoubleOps`): the definitions are written
  once, over any carrier with the operations the source uses.  `floatOps` runs
  them on machine doubles; `realOps` reads every operation as its exact real
  counterpart and is the carrier for statements about values computed from a
  byte index.  Statements about an arbitrary `double` are made for arbitrary
  operations on the reals, rounded or not.
* An array read is total (`tableAt`); `envelopeFromInfoChecked` is the same
  function with each read checked against the extent of its array.
* Unsigned fields are naturals reduced modulo `2^16` or `2^32` wherever the
  source stores into a `uint16_t` or `uint32_t`.
* A chunk is its `size` in bytes and its buffer, a map from the byte offset
  of a record to the record last copied there; where nothing was copied it
  holds `none`.
-/

namespace SF2File

/-! ## Arithmetic on `double` -/

/-- The operations on `double` that the source performs.  `ofRat` is the
conversion of a literal or of an integer, `lt` the comparison `<`, `toInt16`
the conversion stored into a 16-bit signed field, `toInt` the conversion of a
`double` passed where an `int` is expected. -/
structure DoubleOps (F : Type) where
  ofRat : ℚ → F
  add : F → F → F
  sub : F → F → F
  mul : F → F → F
  div : F → F → F
  lt : F → F → Bool
  log : F → F
  pow : F → F → F
  floor : F → F
  round : F → F
  toInt16 : F → Int
  toInt : F → Int

/-- Reduction of an integer to the range of `int16_t`. -/
def wrapInt16 (z : Int) : Int := (z + 32768) % 65536 - 32768

/-- Machine doubles. -/
def floatOps : DoubleOps Float where
  ofRat q := Float.ofInt q.num / Float.ofNat q.den
  add x y := x + y
  sub x y := x - y
  mul x y := x * y
  div x y := x / y
  lt x y := decide (x < y)
  log := Float.log
  pow := Float.pow
  floor := Float.floor
  round := Float.round
  toInt16 x :=
    wrapInt16 (if x < 0 then -Int.ofNat (-x).toUInt64.toNat else Int.ofNat x.toUInt64.toNat)
  toInt x := if x < 0 then -Int.ofNat (-x).toUInt64.toNat else Int.ofNat x.toUInt64.toNat

/-- Exact real arithmetic: each operation is the mathematical one, nothing is
rounded.  `round` rounds halves away from zero as `std::round` does, and
`toInt16` and `toInt` truncate toward zero.  This is not the arithmetic of the
machine: a `double` result is the exact one rounded, so a value computed with
`log` can fall on the other side of an integer than the exact value does, and
`Real.log 0` is 0 where `log(0)` is minus infinity.  It is used for values
that are computed from a byte index, away from such ties; statements about an
arbitrary `double` are made for arbitrary, rounded, operations instead. -/
noncomputable def realOps : DoubleOps ℝ where
  ofRat q := (q : ℝ)
  add x y := x + y
  sub x y := x - y
  mul x y := x * y
  div x y := x / y
  lt x y := decide (x < y)
  log := Real.log
  pow x y := x ^ y
  floor x := (⌊x⌋ : ℝ)
  round x := if 0 ≤ x then (⌊x + 1 / 2⌋ : ℝ) else (⌈x - 1 / 2⌉ : ℝ)
  toInt16 x := wrapInt16 (if 0 ≤ x then ⌊x⌋ else ⌈x⌉)
  toInt x := if 0 ≤ x then ⌊x⌋ else ⌈x⌉

/-! ## Source model -/

/-- Modelled from the spec: the record `rsnd::InstrInfo`, declared in
`rsnd/SoundBank.hpp`, which is not among the sources.  The curve indices, the
volume, the pan and the original key are bytes; `waveIdx` indexes the wave
list. -/
structure InstrInfo where
  waveIdx : Nat
  attack : Fin 256
  decay : Fin 256
  sustain : Fin 256
  release : Fin 256
  hold : Fin 256
  originalKey : Fin 256
  volume : Fin 256
  pan : Fin 256
  deriving DecidableEq, Repr

/-- Modelled from the spec: one region of an instrument, declared in
`rsnd/SoundBank.hpp`: a key range, a velocity range and the `InstrInfo` it
points to, all four bounds being bytes. -/
structure InstrumentRegion where
  keyLo : Fin 256
  keyHi : Fin 256
  velLo : Fin 256
  velHi : Fin 256
  instrInfo : InstrInfo
  deriving DecidableEq, Repr

/-- Modelled from the spec: `rsnd::SoundBank` as the constructor sees it, the
ordered instruments, each the ordered list of its regions. -/
abbrev SoundBank := List (List InstrumentRegion)

/-- Modelled from the spec: `bankfile->getInstrCount()`, the number of instruments. -/
def getInstrCount (bankfile : SoundBank) : Nat := bankfile.length

/-- Modelled from the spec: `bankfile->getInstrRegions(i)`, the regions of instrument `i`
in order. -/
def getInstrRegions (bankfile : SoundBank) (i : Nat) : List InstrumentRegion :=
  bankfile.getD i []

/-- Modelled from the spec: `WaveAudio`, declared in `SF2File.h`: the raw PCM
bytes, their length in bytes, the loop bounds in frames, the sample rate and
the boolean loop flag. -/
structure WaveAudio where
  data : List (Fin 256)
  dataLength : Nat
  loopStart : Nat
  loopEnd : Nat
  sampleRate : Nat
  loop : Bool
  deriving DecidableEq, Repr, Inhabited

/-! ## Envelope conversion -/

structure EnvelopeParams (F : Type) where
  attack_time : F
  decay_time : F
  sustain_level : F
  release_time : F
  hold_time : F

def LogB {F : Type} (ops : DoubleOps F) (n b : F) : F :=
  ops.div (ops.log n) (ops.log b)

def timeToTimecents {F : Type} (ops : DoubleOps F) (time : F) : F :=
  let timeCent := ops.floor (ops.mul (ops.ofRat 1200) (LogB ops time (ops.ofRat 2)))
  if ops.lt (ops.ofRat (-12000)) timeCent && ops.lt timeCent (ops.ofRat 0) then
    ops.add timeCent (ops.ofRat 65536)
  else if ops.lt timeCent (ops.ofRat (-12000)) then
    ops.ofRat (-12000)
  else
    timeCent

def attackTable : List ℚ :=
  [13122, 6546, 4356, 3261, 2604, 2163, 1851, 1617, 1434, 1287, 1167, 1068, 984, 912, 849, 795,
   747, 702, 666, 630, 600, 570, 543, 519, 498, 477, 459, 441, 426, 411, 396, 384, 372, 360,
   348, 336, 327, 318, 309, 300, 294, 285, 279, 270, 264, 258, 252, 246, 240, 234, 231, 225,
   219, 216, 210, 207, 201, 198, 195, 192, 186, 183, 180, 177, 174, 171, 168, 165, 162, 159,
   156, 153.5, 153, 150, 147, 144, 141.5, 141, 138, 135.5, 135, 132, 129.5, 129, 126, 123.5,
   123, 120.5, 120, 117, 114.5, 114, 111.5, 111, 108.5, 108, 105.7, 105.35, 105, 102.5, 102,
   99.5, 99, 96.7, 96.35, 96, 93.5, 93, 90, 87, 81, 75, 72, 69, 63, 60, 54, 48, 45, 39, 36, 30,
   24, 21, 15, 12, 9, 6.1e-6]

def holdTable : List ℚ :=
  [6e-6, 1, 2, 4, 6, 9, 12, 16, 20, 25, 30, 36, 42, 49, 56, 64, 72, 81, 90, 100, 110, 121, 132,
   144, 156, 169, 182, 196, 210, 225, 240, 256, 272, 289, 306, 324, 342, 361, 380, 400, 420,
   441, 462, 484, 506, 529, 552, 576, 600, 625, 650, 676, 702, 729, 756, 784, 812, 841, 870,
   900, 930, 961, 992, 1024, 1056, 1089, 1122, 1156, 1190, 1225, 1260, 1296, 1332, 1369, 1406,
   1444, 1482, 1521, 1560, 1600, 1640, 1681, 1722, 1764, 1806, 1849, 1892, 1936, 1980, 2025,
   2070, 2116, 2162, 2209, 2256, 2304, 2352, 2401, 2450, 2500, 2550, 2601, 2652, 2704, 2756,
   2809, 2862, 2916, 2970, 3025, 3080, 3136, 3192, 3249, 3306, 3364, 3422, 3481, 3540, 3600,
   3660, 3721, 3782, 3844, 3906, 3969, 4032, 4096]

def decayTable : List ℚ :=
  [-0.00016, -0.00047, -0.00078, -0.00109, -0.00141, -0.00172, -0.00203, -0.00234, -0.00266,
   -0.00297, -0.00328, -0.00359, -0.00391, -0.00422, -0.00453, -0.00484, -0.00516, -0.00547,
   -0.00578, -0.00609, -0.00641, -0.00672, -0.00703, -0.00734, -0.00766, -0.00797, -0.00828,
   -0.00859, -0.00891, -0.00922, -0.00953, -0.00984, -0.01016, -0.01047, -0.01078, -0.01109,
   -0.01141, -0.01172, -0.01203, -0.01234, -0.01266, -0.01297, -0.01328, -0.01359, -0.01391,
   -0.01422, -0.01453, -0.01484, -0.01516, -0.01547, -0.01579, -0.016, -0.01622, -0.01644,
   -0.01667, -0.0169, -0.01714, -0.01739, -0.01765, -0.01791, -0.01818, -0.01846, -0.01875,
   -0.01905, -0.01935, -0.01967, -0.02, -0.02034, -0.02069, -0.02105, -0.02143, -0.02182,
   -0.02222, -0.02264, -0.02308, -0.02353, -0.024, -0.02449, -0.025, -0.02553, -0.02609,
   -0.02667, -0.02727, -0.02791, -0.02857, -0.02927, -0.03, -0.03077, -0.03158, -0.03243,
   -0.03333, -0.03429, -0.03529, -0.03636, -0.0375, -0.03871, -0.04, -0.04138, -0.04286,
   -0.04444, -0.04615, -0.048, -0.05, -0.05217, -0.05455, -0.05714, -0.06, -0.06316, -0.06667,
   -0.07059, -0.075, -0.08, -0.08571, -0.09231, -1, -0.10909, -0.12, -0.13333, -0.15, -0.17143,
   -2, -2.4, -3, -4, -6, -12, -24, -65535]

/-- The table entry `table[i]`.  An index past the end of the array reads
outside it; the embedding gives that read the value 0. -/
def tableAt (table : List ℚ) (i : Nat) : ℚ := table.getD i 0

/-- The function `envelopeFromInfo` of the source.  The call `abs(...)` that computes
`sustain_level` is unqualified and only `<cmath>` is included, so it is `int abs(int)`: the
logarithm is converted to `int` first, which truncates it, and `200 * abs(...)` is a
product of two `int`s, converted back to `double` by the assignment.  The `int`s are
integers here; the product is at most 800 for every byte. -/
def envelopeFromInfo {F : Type} (ops : DoubleOps F) (info : InstrInfo) : EnvelopeParams F :=
  let attack_time :=
    timeToTimecents ops (ops.div (ops.ofRat (tableAt attackTable info.attack.val)) (ops.ofRat 1000))
  let sustainVol :=
    ops.mul (ops.ofRat 20)
      (LogB ops (ops.pow (ops.div (ops.ofRat info.sustain.val) (ops.ofRat 127)) (ops.ofRat 2))
        (ops.ofRat 10))
  let decay_time :=
    if info.decay = 127 then
      ops.ofRat (-12000)
    else if info.sustain = 0 then
      timeToTimecents ops
        (ops.div (ops.div (ops.ofRat (-90.25)) (ops.ofRat (tableAt decayTable info.decay.val)))
          (ops.ofRat 1000))
    else
      timeToTimecents ops
        (ops.div (ops.div sustainVol (ops.ofRat (tableAt decayTable info.decay.val)))
          (ops.ofRat 1000))
  let sustain_level :=
    if info.sustain = 0 then
      ops.ofRat 900
    else
      ops.ofRat
        ((200 * |ops.toInt
          (LogB ops (ops.pow (ops.div (ops.ofRat info.sustain.val) (ops.ofRat 127)) (ops.ofRat 2))
            (ops.ofRat 10))| : Int) : ℚ)
  let release_time :=
    if info.release = 127 then
      ops.ofRat (-12000)
    else if info.sustain = 0 then
      timeToTimecents ops
        (ops.div (ops.div (ops.ofRat (-90.25)) (ops.ofRat (tableAt decayTable info.release.val)))
          (ops.ofRat 1000))
    else
      timeToTimecents ops
        (ops.div
          (ops.div (ops.sub (ops.ofRat (-90.25)) sustainVol)
            (ops.ofRat (tableAt decayTable info.release.val)))
          (ops.ofRat 1000))
  let hold_time :=
    timeToTimecents ops (ops.div (ops.ofRat (tableAt holdTable info.hold.val)) (ops.ofRat 1000))
  { attack_time := attack_time
    decay_time := decay_time
    sustain_level := sustain_level
    release_time := release_time
    hold_time := hold_time }

/-- The read `table[i]` with the extent of the array checked: `none` when `i` is past
the end, where the source reads outside the array. -/
def tableRead (table : List ℚ) (i : Nat) : Option ℚ := table.get? i

/-- The function `envelopeFromInfo` of the source again, statement by statement, with
every array read checked: each `table[i]` the source evaluates is a `tableRead`, in the
branch where the source evaluates it, and the result is `none` as soon as one of them is
past the end of its array. -/
def envelopeFromInfoChecked {F : Type} (ops : DoubleOps F) (info : InstrInfo) :
    Option (EnvelopeParams F) := do
  let attackEntry ← tableRead attackTable info.attack.val
  let attack_time := timeToTimecents ops (ops.div (ops.ofRat attackEntry) (ops.ofRat 1000))
  let sustainVol :=
    ops.mul (ops.ofRat 20)
      (LogB ops (ops.pow (ops.div (ops.ofRat info.sustain.val) (ops.ofRat 127)) (ops.ofRat 2))
        (ops.ofRat 10))
  let decay_time ←
    if info.decay = 127 then
      pure (ops.ofRat (-12000))
    else if info.sustain = 0 then do
      let decayEntry ← tableRead decayTable info.decay.val
      pure (timeToTimecents ops
        (ops.div (ops.div (ops.ofRat (-90.25)) (ops.ofRat decayEntry)) (ops.ofRat 1000)))
    else do
      let decayEntry ← tableRead decayTable info.decay.val
      pure (timeToTimecents ops
        (ops.div (ops.div sustainVol (ops.ofRat decayEntry)) (ops.ofRat 1000)))
  let sustain_level :=
    if info.sustain = 0 then
      ops.ofRat 900
    else
      ops.ofRat
        ((200 * |ops.toInt
          (LogB ops (ops.pow (ops.div (ops.ofRat info.sustain.val) (ops.ofRat 127)) (ops.ofRat 2))
            (ops.ofRat 10))| : Int) : ℚ)
  let release_time ←
    if info.release = 127 then
      pure (ops.ofRat (-12000))
    else if info.sustain = 0 then do
      let releaseEntry ← tableRead decayTable info.release.val
      pure (timeToTimecents ops
        (ops.div (ops.div (ops.ofRat (-90.25)) (ops.ofRat releaseEntry)) (ops.ofRat 1000)))
    else do
      let releaseEntry ← tableRead decayTable info.release.val
      pure (timeToTimecents ops
        (ops.div
          (ops.div (ops.sub (ops.ofRat (-90.25)) sustainVol) (ops.ofRat releaseEntry))
          (ops.ofRat 1000)))
  let holdEntry ← tableRead holdTable info.hold.val
  let hold_time := timeToTimecents ops (ops.div (ops.ofRat holdEntry) (ops.ofRat 1000))
  pure
    { attack_time := attack_time
      decay_time := decay_time
      sustain_level := sustain_level
      release_time := release_time
      hold_time := hold_time }

/-! ## Target records

The record types and the generator enumeration are declared in `SF2File.h`,
which is not among the sources; fields, widths and record sizes are those of
the SF2 binary layout the spec refers to. -/

/-- Modelled from the spec: the enumeration `SFGenerator` of `SF2File.h`, cut to the
operators the constructor writes, with `startAddrsOffset` for the zero tag of a terminal
record. -/
inductive SFGenerator
  | startAddrsOffset
  | reverbEffectsSend
  | pan
  | attackVolEnv
  | holdVolEnv
  | decayVolEnv
  | sustainVolEnv
  | releaseVolEnv
  | instrument
  | keyRange
  | velRange
  | initialAttenuation
  | sampleID
  | sampleModes
  | overridingRootKey
  deriving DecidableEq, Repr

/-- Modelled from the spec: the numeric value of each enumerator, as the SF2 layout
numbers the generators. -/
def SFGenerator.code : SFGenerator → Nat
  | .startAddrsOffset => 0
  | .reverbEffectsSend => 16
  | .pan => 17
  | .attackVolEnv => 34
  | .holdVolEnv => 35
  | .decayVolEnv => 36
  | .sustainVolEnv => 37
  | .releaseVolEnv => 38
  | .instrument => 41
  | .keyRange => 43
  | .velRange => 44
  | .initialAttenuation => 48
  | .sampleID => 53
  | .sampleModes => 54
  | .overridingRootKey => 58

/-- Modelled from the spec: the union `genAmountType` of `SF2File.h`, by the member the
source assigns: a pair of bytes, a signed 16-bit amount or an unsigned 16-bit amount. -/
inductive genAmountType
  | ranges (byLo byHi : Nat)
  | shAmount (v : Int)
  | wAmount (v : Nat)
  deriving DecidableEq, Repr

/-- The two bytes of the union read as one little-endian 16-bit word. -/
def genAmountType.word : genAmountType → Nat
  | .ranges byLo byHi => byLo % 256 + 256 * (byHi % 256)
  | .shAmount v => (v % 65536).toNat
  | .wAmount v => v % 65536

/-- Modelled from the spec: the record `sfGenList` of `SF2File.h`, an operator and its
amount. -/
structure sfGenList where
  sfGenOper : SFGenerator
  genAmount : genAmountType
  deriving DecidableEq, Repr

/-- Modelled from the spec: the record `sfInstGenList` of `SF2File.h`, which has the layout
of `sfGenList`. -/
abbrev sfInstGenList := sfGenList

/-- Modelled from the spec: the record `sfPresetHeader` of `SF2File.h`; the three index
fields have 16 bits. -/
structure sfPresetHeader where
  achPresetName : String
  wPreset : Nat
  wBank : Nat
  wPresetBagNdx : Nat
  dwLibrary : Nat
  dwGenre : Nat
  dwMorphology : Nat
  deriving DecidableEq, Repr

/-- Modelled from the spec: the record `sfPresetBag` of `SF2File.h`, two 16-bit indices. -/
structure sfPresetBag where
  wGenNdx : Nat
  wModNdx : Nat
  deriving DecidableEq, Repr

/-- Modelled from the spec: the record `sfInst` of `SF2File.h`, a name and a 16-bit index. -/
structure sfInst where
  achInstName : String
  wInstBagNdx : Nat
  deriving DecidableEq, Repr

/-- Modelled from the spec: the record `sfInstBag` of `SF2File.h`, two 16-bit indices. -/
structure sfInstBag where
  wInstGenNdx : Nat
  wInstModNdx : Nat
  deriving DecidableEq, Repr

/-- Modelled from the spec: the record `sfSample` of `SF2File.h`; the five offsets and the
rate have 32 bits. -/
structure sfSample where
  achSampleName : String
  dwStart : Nat
  dwEnd : Nat
  dwStartloop : Nat
  dwEndloop : Nat
  dwSampleRate : Nat
  byOriginalKey : Nat
  chCorrection : Int
  wSampleLink : Nat
  sfSampleType : Nat
  deriving DecidableEq, Repr

/-- Modelled from the spec: the enumerator `monoSample` of `SF2File.h`. -/
def monoSample : Nat := 1

/-- Modelled from the spec: `sizeof(sfPresetHeader)` in the SF2 layout. -/
def sizeof_sfPresetHeader : Nat := 38

/-- Modelled from the spec: `sizeof(sfPresetBag)` in the SF2 layout. -/
def sizeof_sfPresetBag : Nat := 4

/-- Modelled from the spec: `sizeof(sfGenList)` in the SF2 layout. -/
def sizeof_sfGenList : Nat := 4

/-- Modelled from the spec: `sizeof(sfInst)` in the SF2 layout. -/
def sizeof_sfInst : Nat := 22

/-- Modelled from the spec: `sizeof(sfInstBag)` in the SF2 layout. -/
def sizeof_sfInstBag : Nat := 4

/-- Modelled from the spec: `sizeof(sfInstGenList)` in the SF2 layout. -/
def sizeof_sfInstGenList : Nat := 4

/-- Modelled from the spec: `sizeof(sfSample)` in the SF2 layout. -/
def sizeof_sfSample : Nat := 46

/-! ## Machine integers and buffers -/

/-- Conversion to `uint16_t`. -/
def uint16 (n : Nat) : Nat := n % 65536

/-- Conversion to `uint32_t`. -/
def uint32 (n : Nat) : Nat := n % 4294967296

/-- Modelled from the spec: the class `Chunk` of the container writer, as far as the
constructor uses it.  `size` is `Chunk::size` in bytes; `data` is the buffer behind
`Chunk::data`, read one record at a time: `data off` is the record last copied to byte
offset `off`, and `none` where nothing was copied since `new uint8_t[size]`. -/
structure Chunk (R : Type) where
  size : Nat
  data : Nat → Option R

/-- The call `memcpy(ck->data + offset, &r, sizeof(r))`. -/
def memcpy {R : Type} (data : Nat → Option R) (offset : Nat) (r : R) : Nat → Option R :=
  fun off => if off = offset then some r else data off

/-- The records a chunk of `size` bytes holds: one slot per `recSize` bytes. -/
def Chunk.records {R : Type} (ck : Chunk R) (recSize : Nat) : List (Option R) :=
  (List.range (ck.size / recSize)).map (fun k => ck.data (k * recSize))

/-- The loop `for (size_t i = 0; i < n; i++)` over a state. -/
def forLoop {σ : Type} (n : Nat) (body : Nat → σ → σ) (init : σ) : σ :=
  (List.range n).foldl (fun st i => body i st) init

/-- The pair of statements `memcpy(ck->data + dataPtr, &r, sizeof(r)); dataPtr += sizeof(r);`
on the state `(data, dataPtr)`.  `dataPtr` is kept unreduced: a write at an
offset of `2^32 - recSize` or more is already past an allocation whose size is
a `uint32_t`. -/
def emit {R : Type} (recSize : Nat) (r : R) (st : (Nat → Option R) × Nat) :
    (Nat → Option R) × Nat :=
  (memcpy st.1 st.2 r, st.2 + recSize)

/-! ## The constructor `SF2File::SF2File`, chunk by chunk -/

/-- The name `"instr" + std::to_string(i)`, cut to the 20 bytes of the field. -/
def instrName (i : Nat) : String := ("instr" ++ toString i).take 20

/-- The name `"wav" + std::to_string(i)`, cut to the 20 bytes of the field. -/
def waveName (i : Nat) : String := ("wav" ++ toString i).take 20

def phdrCk (bankfile : SoundBank) : Chunk sfPresetHeader :=
  let numInstrs := getInstrCount bankfile
  let size := uint32 ((numInstrs + 1) * sizeof_sfPresetHeader)
  let data := forLoop numInstrs (fun i data =>
    let wPreset := i
    let wBank := 0
    let presetHdr : sfPresetHeader :=
      { achPresetName := instrName i
        wPreset := uint16 wPreset
        wBank := if wBank &&& 0xFF00 = 0 then wBank &&& 0x7F else (wBank >>> 8) &&& 0x7F
        wPresetBagNdx := uint16 i
        dwLibrary := 0
        dwGenre := 0
        dwMorphology := 0 }
    memcpy data (i * sizeof_sfPresetHeader) presetHdr) (fun _ => none)
  let presetHdr : sfPresetHeader :=
    { achPresetName := "", wPreset := 0, wBank := 0, wPresetBagNdx := uint16 numInstrs,
      dwLibrary := 0, dwGenre := 0, dwMorphology := 0 }
  { size := size, data := memcpy data (numInstrs * sizeof_sfPresetHeader) presetHdr }

def ITEMS_IN_PGEN : Nat := 2

def pbagCk (bankfile : SoundBank) : Chunk sfPresetBag :=
  let numInstrs := getInstrCount bankfile
  let size := uint32 ((numInstrs + 1) * sizeof_sfPresetBag)
  let data := forLoop numInstrs (fun i data =>
    let presetBag : sfPresetBag := { wGenNdx := uint16 (i * ITEMS_IN_PGEN), wModNdx := 0 }
    memcpy data (i * sizeof_sfPresetBag) presetBag) (fun _ => none)
  let presetBag : sfPresetBag := { wGenNdx := uint16 (numInstrs * ITEMS_IN_PGEN), wModNdx := 0 }
  { size := size, data := memcpy data (numInstrs * sizeof_sfPresetBag) presetBag }

def pgenCk (bankfile : SoundBank) : Chunk sfGenList :=
  let numInstrs := getInstrCount bankfile
  let size := uint32 (numInstrs * sizeof_sfGenList * ITEMS_IN_PGEN + sizeof_sfGenList)
  let st := forLoop numInstrs (fun i st =>
    let instrReverb : Int := 0
    let st := emit sizeof_sfGenList
      { sfGenOper := .reverbEffectsSend, genAmount := .shAmount (instrReverb * 1000) } st
    emit sizeof_sfGenList
      { sfGenOper := .instrument, genAmount := .wAmount (uint16 i) } st)
    ((fun _ => none), 0)
  let genList : sfGenList := { sfGenOper := .startAddrsOffset, genAmount := .wAmount 0 }
  { size := size, data := memcpy st.1 st.2 genList }

/-- The loop of the `inst` chunk: the buffer and the `uint16_t rgnCounter`
after the headers of all instruments. -/
def instLoop (bankfile : SoundBank) : (Nat → Option sfInst) × Nat :=
  forLoop (getInstrCount bankfile) (fun i st =>
    let regions := getInstrRegions bankfile i
    let inst : sfInst := { achInstName := instrName i, wInstBagNdx := st.2 }
    let rgnCounter := uint16 (st.2 + regions.length)
    (memcpy st.1 (i * sizeof_sfInst) inst, rgnCounter)) ((fun _ => none), 0)

/-- The count `numTotalRgns` the `inst` loop leaves behind. -/
def numTotalRgns (bankfile : SoundBank) : Nat := (instLoop bankfile).2

def instCk (bankfile : SoundBank) : Chunk sfInst :=
  let numInstrs := getInstrCount bankfile
  let size := uint32 ((numInstrs + 1) * sizeof_sfInst)
  let inst : sfInst := { achInstName := "", wInstBagNdx := uint16 (numTotalRgns bankfile) }
  { size := size, data := memcpy (instLoop bankfile).1 (numInstrs * sizeof_sfInst) inst }

/-- State of the `ibag` loops: the buffer, the `uint16_t rgnCounter` and the
`int instGenCounter`, which is kept unreduced (overflow of an `int` is undefined). -/
structure IbagState where
  data : Nat → Option sfInstBag
  rgnCounter : Nat
  instGenCounter : Nat

def ibagCk (bankfile : SoundBank) : Chunk sfInstBag :=
  let numInstrs := getInstrCount bankfile
  let size := uint32 ((numTotalRgns bankfile + 1) * sizeof_sfInstBag)
  let st := forLoop numInstrs (fun i st =>
    let regions := getInstrRegions bankfile i
    regions.foldl (fun (st : IbagState) _ =>
      let instBag : sfInstBag := { wInstGenNdx := uint16 st.instGenCounter, wInstModNdx := 0 }
      { data := memcpy st.data (st.rgnCounter * sizeof_sfInstBag) instBag
        rgnCounter := uint16 (st.rgnCounter + 1)
        instGenCounter := st.instGenCounter + 12 }) st)
    { data := fun _ => none, rgnCounter := 0, instGenCounter := 0 }
  let instBag : sfInstBag := { wInstGenNdx := uint16 st.instGenCounter, wInstModNdx := 0 }
  { size := size, data := memcpy st.data (st.rgnCounter * sizeof_sfInstBag) instBag }

/-- The body of the inner `igen` loop for one region: the generator records
are built and copied one after the other, starting at `dataPtr`. -/
def igenRegion {F : Type} (ops : DoubleOps F) (waves : List WaveAudio)
    (instrRegion : InstrumentRegion) (st : (Nat → Option sfInstGenList) × Nat) :
    (Nat → Option sfInstGenList) × Nat :=
  let st := emit sizeof_sfInstGenList
    { sfGenOper := .keyRange
      genAmount := .ranges instrRegion.keyLo.val instrRegion.keyHi.val } st
  let st :=
    if instrRegion.velHi ≠ 0 then
      emit sizeof_sfInstGenList
        { sfGenOper := .velRange
          genAmount := .ranges instrRegion.velLo.val instrRegion.velHi.val } st
    else st
  let instrInfo := instrRegion.instrInfo
  let envelope := envelopeFromInfo ops instrInfo
  let wav := waves.getD instrInfo.waveIdx default
  let st := emit sizeof_sfInstGenList
    { sfGenOper := .initialAttenuation
      genAmount := .shAmount (127 - (instrInfo.volume.val : Int)) } st
  let panConverted :=
    ops.toInt16 (ops.round (ops.div (ops.ofRat (1000 * ((instrInfo.pan.val : Int) - 64)))
      (ops.ofRat 64)))
  let st := emit sizeof_sfInstGenList
    { sfGenOper := .pan, genAmount := .shAmount panConverted } st
  let st := emit sizeof_sfInstGenList
    { sfGenOper := .sampleModes, genAmount := .wAmount wav.loop.toNat } st
  let st := emit sizeof_sfInstGenList
    { sfGenOper := .overridingRootKey, genAmount := .wAmount instrInfo.originalKey.val } st
  let st := emit sizeof_sfInstGenList
    { sfGenOper := .attackVolEnv, genAmount := .shAmount (ops.toInt16 envelope.attack_time) } st
  let st := emit sizeof_sfInstGenList
    { sfGenOper := .holdVolEnv, genAmount := .shAmount (ops.toInt16 envelope.hold_time) } st
  let st := emit sizeof_sfInstGenList
    { sfGenOper := .decayVolEnv, genAmount := .shAmount (ops.toInt16 envelope.decay_time) } st
  let st := emit sizeof_sfInstGenList
    { sfGenOper := .sustainVolEnv,
      genAmount := .shAmount (ops.toInt16 envelope.sustain_level) } st
  let st := emit sizeof_sfInstGenList
    { sfGenOper := .releaseVolEnv,
      genAmount := .shAmount (ops.toInt16 envelope.release_time) } st
  emit sizeof_sfInstGenList
    { sfGenOper := .sampleID, genAmount := .wAmount (uint16 instrInfo.waveIdx) } st

/-- The `igen` loops: the buffer and `dataPtr` after the records of all regions. -/
def igenLoop {F : Type} (ops : DoubleOps F) (bankfile : SoundBank) (waves : List WaveAudio) :
    (Nat → Option sfInstGenList) × Nat :=
  forLoop (getInstrCount bankfile) (fun i st =>
    let instrRegions := getInstrRegions bankfile i
    instrRegions.foldl (fun st instrRegion => igenRegion ops waves instrRegion st) st)
    ((fun _ => none), 0)

def igenCk {F : Type} (ops : DoubleOps F) (bankfile : SoundBank) (waves : List WaveAudio) :
    Chunk sfInstGenList :=
  let size :=
    uint32 (numTotalRgns bankfile * sizeof_sfInstGenList * 12 + sizeof_sfInstGenList)
  let st := igenLoop ops bankfile waves
  let instGenList : sfInstGenList := { sfGenOper := .startAddrsOffset, genAmount := .wAmount 0 }
  { size := size, data := memcpy st.1 st.2 instGenList }

/-- The search of the `shdr` loop: the `InstrInfo` of the first region, in
instrument order and then region order, whose `waveIdx` is `i`; `none` stands
for the null pointer. -/
def findInstrInfo (bankfile : SoundBank) (i : Nat) : Option InstrInfo :=
  bankfile.findSome? (fun instrRegions =>
    (instrRegions.find? (fun instrRegion => instrRegion.instrInfo.waveIdx == i)).map
      (fun instrRegion => instrRegion.instrInfo))

/-- The loop of the `shdr` chunk: the buffer and the `uint32_t sampOffset`
after all waves.  A wave no region refers to takes the `continue`: its header
is not copied. -/
def shdrLoop (bankfile : SoundBank) (waves : List WaveAudio) : (Nat → Option sfSample) × Nat :=
  forLoop waves.length (fun i st =>
    let wav := waves.getD i default
    let dwStart := st.2
    let dwEnd := uint32 (dwStart + wav.dataLength / 2)
    let sampOffset := uint32 (dwEnd + 46)
    match findInstrInfo bankfile i with
    | none => (st.1, sampOffset)
    | some instrInfo =>
      let samp : sfSample :=
        { achSampleName := waveName i
          dwStart := dwStart
          dwEnd := dwEnd
          dwStartloop := uint32 (dwStart + wav.loopStart)
          dwEndloop := uint32 (dwStart + wav.loopEnd + 1)
          dwSampleRate := uint32 wav.sampleRate
          byOriginalKey := instrInfo.originalKey.val
          chCorrection := 0
          wSampleLink := 0
          sfSampleType := monoSample }
      (memcpy st.1 (i * sizeof_sfSample) samp, sampOffset)) ((fun _ => none), 0)

def shdrCk (bankfile : SoundBank) (waves : List WaveAudio) : Chunk sfSample :=
  let numSamps := waves.length
  let size := uint32 ((numSamps + 1) * sizeof_sfSample)
  let zero : sfSample :=
    { achSampleName := "", dwStart := 0, dwEnd := 0, dwStartloop := 0, dwEndloop := 0,
      dwSampleRate := 0, byOriginalKey := 0, chCorrection := 0, wSampleLink := 0,
      sfSampleType := 0 }
  { size := size, data := memcpy (shdrLoop bankfile waves).1 (numSamps * sizeof_sfSample) zero }

/-! ## Quantities and inputs the statements refer to -/

/-- An `InstrInfo` with `decay` and `release` at 127, the round-trip scenario of the spec. -/
def infoRoundTrip : InstrInfo :=
  { waveIdx := 0, attack := 0, decay := 127, sustain := 0, release := 127, hold := 0,
    originalKey := 60, volume := 100, pan := 64 }

/-- The region of the round-trip scenario of the spec: all keys, no velocity range. -/
def regionRoundTrip : InstrumentRegion :=
  { keyLo := 0, keyHi := 127, velLo := 0, velHi := 0, instrInfo := infoRoundTrip }

/-- A bank of one instrument with one region, the round-trip scenario of the spec. -/
def bankRoundTrip : SoundBank := [[regionRoundTrip]]

/-- Total number of regions of instruments `0..i-1`. -/
def regionsBefore (bankfile : SoundBank) (i : Nat) : Nat :=
  ((bankfile.take i).map List.length).sum

/-- Frames before wave `i` in the sample data: the waves `0..i-1`, each with its 46 frames
of padding. -/
def framesBefore (waves : List WaveAudio) (i : Nat) : Nat :=
  ((waves.take i).map (fun wav => wav.dataLength / 2 + 46)).sum

/-- The header the `shdr` loop builds for wave `i` once it has found `instrInfo`. -/
def sampleHeader (waves : List WaveAudio) (i : Nat) (instrInfo : InstrInfo) : sfSample :=
  { achSampleName := waveName i
    dwStart := uint32 (framesBefore waves i)
    dwEnd := uint32 (framesBefore waves i + (waves.getD i default).dataLength / 2)
    dwStartloop := uint32 (uint32 (framesBefore waves i) + (waves.getD i default).loopStart)
    dwEndloop := uint32 (uint32 (framesBefore waves i) + (waves.getD i default).loopEnd + 1)
    dwSampleRate := uint32 (waves.getD i default).sampleRate
    byOriginalKey := instrInfo.originalKey.val
    chCorrection := 0
    wSampleLink := 0
    sfSampleType := monoSample }

/-- The wave of the round-trip scenario of the spec: four bytes, two frames, looped. -/
def waveRoundTrip : WaveAudio :=
  { data := [0, 0, 0, 0], dataLength := 4, loopStart := 0, loopEnd := 1, sampleRate := 44100,
    loop := true }

/-- The `n` records read back from a buffer, one every `recSize` bytes from `offset` on. -/
def readRecords {R : Type} (data : Nat → Option R) (offset recSize n : Nat) : List (Option R) :=
  (List.range n).map (fun j => data (offset + j * recSize))

/-- The ten records every region ends with, as `igenRegion` builds them. -/
def fixedGens {F : Type} (ops : DoubleOps F) (waves : List WaveAudio)
    (instrInfo : InstrInfo) : List sfInstGenList :=
  [ { sfGenOper := .initialAttenuation
      genAmount := .shAmount (127 - (instrInfo.volume.val : Int)) },
    { sfGenOper := .pan
      genAmount := .shAmount (ops.toInt16 (ops.round
        (ops.div (ops.ofRat (1000 * ((instrInfo.pan.val : Int) - 64))) (ops.ofRat 64)))) },
    { sfGenOper := .sampleModes
      genAmount := .wAmount (waves.getD instrInfo.waveIdx default).loop.toNat },
    { sfGenOper := .overridingRootKey, genAmount := .wAmount instrInfo.originalKey.val },
    { sfGenOper := .attackVolEnv
      genAmount := .shAmount (ops.toInt16 (envelopeFromInfo ops instrInfo).attack_time) },
    { sfGenOper := .holdVolEnv
      genAmount := .shAmount (ops.toInt16 (envelopeFromInfo ops instrInfo).hold_time) },
    { sfGenOper := .decayVolEnv
      genAmount := .shAmount (ops.toInt16 (envelopeFromInfo ops instrInfo).decay_time) },
    { sfGenOper := .sustainVolEnv
      genAmount := .shAmount (ops.toInt16 (envelopeFromInfo ops instrInfo).sustain_level) },
    { sfGenOper := .releaseVolEnv
      genAmount := .shAmount (ops.toInt16 (envelopeFromInfo ops instrInfo).release_time) },
    { sfGenOper := .sampleID, genAmount := .wAmount (uint16 instrInfo.waveIdx) } ]

/-- Copying a list of records one after the other. -/
def emitAll {R : Type} (recSize : Nat) (rs : List R) (st : (Nat → Option R) × Nat) :
    (Nat → Option R) × Nat :=
  rs.foldl (fun st r => emit recSize r st) st

/-- A region with a velocity range. -/
def regionWithVel : InstrumentRegion :=
  { keyLo := 10, keyHi := 20, velLo := 30, velHi := 40, instrInfo := infoRoundTrip }

/-- A region whose `InstrInfo` refers to wave 65536. -/
def regionWave65536 : InstrumentRegion :=
  { keyLo := 0, keyHi := 127, velLo := 0, velHi := 0,
    instrInfo := { infoRoundTrip with waveIdx := 65536 } }

/-- A bank of one instrument with two regions, neither with a velocity range. -/
def bankTwoRegions : SoundBank := [[regionRoundTrip, regionRoundTrip]]

/-- Number of generator records the `igen` loop copies for one region. -/
def gensOfRegion (instrRegion : InstrumentRegion) : Nat :=
  if instrRegion.velHi ≠ 0 then 12 else 11

/-- Number of generator records the `igen` loop copies for instruments `0..i-1`. -/
def gensBefore (bankfile : SoundBank) (i : Nat) : Nat :=
  ((bankfile.take i).map (fun regions => (regions.map gensOfRegion).sum)).sum

/-! ## The sample data and the modulator chunks -/

/-- The call `memcpy(dst + offset, src, n)` on bytes: byte `j` of the destination range is
byte `j` of `src`; a source byte past the end of `src` is unknown and reads as `none`. -/
def memcpyBytes (dst : Nat → Option (Fin 256)) (offset : Nat) (src : List (Fin 256)) (n : Nat) :
    Nat → Option (Fin 256) :=
  fun off => if offset ≤ off ∧ off < offset + n then src.get? (off - offset) else dst off

/-- The call `memset(dst + offset, value, n)`. -/
def memsetBytes (dst : Nat → Option (Fin 256)) (offset : Nat) (value : Fin 256) (n : Nat) :
    Nat → Option (Fin 256) :=
  fun off => if offset ≤ off ∧ off < offset + n then some value else dst off

/-- The first loop of the `smpl` chunk: `smplCk->size` after all waves. -/
def smplSize (waves : List WaveAudio) : Nat :=
  forLoop waves.length (fun i size =>
    let wav := waves.getD i default
    uint32 (size + (wav.dataLength + 46 * 2))) 0

/-- The second loop of the `smpl` chunk after `m` waves: the buffer and the
`uint32_t bufPtr`. -/
def smplLoopUpTo (waves : List WaveAudio) (m : Nat) : (Nat → Option (Fin 256)) × Nat :=
  forLoop m (fun i st =>
    let wav := waves.getD i default
    let waveSz := wav.dataLength
    let data := memcpyBytes st.1 st.2 wav.data waveSz
    let data := memsetBytes data (st.2 + waveSz) 0 (46 * 2)
    (data, uint32 (st.2 + (waveSz + 46 * 2)))) ((fun _ => none), 0)

/-- The value of `bufPtr` when wave `i` is copied: the byte offset at which the data of wave
`i` begins in the buffer. -/
def bufPtrAt (waves : List WaveAudio) (i : Nat) : Nat := (smplLoopUpTo waves i).2

def smplCk (waves : List WaveAudio) : Chunk (Fin 256) :=
  { size := smplSize waves, data := (smplLoopUpTo waves waves.length).1 }

/-- Modelled from the spec: the record `sfModList` of `SF2File.h`, five 16-bit fields. -/
structure sfModList where
  sfModSrcOper : Nat
  sfModDestOper : Nat
  modAmount : Int
  sfModAmtSrcOper : Nat
  sfModTransOper : Nat
  deriving DecidableEq, Repr

/-- Modelled from the spec: `sizeof(sfModList)` in the SF2 layout. -/
def sizeof_sfModList : Nat := 10

/-- Modelled from the spec: `Chunk::SetData(src, datasize)` of the container writer, which
sets the size and copies the payload to a fresh buffer. -/
def SetData {R : Type} (r : R) (datasize : Nat) : Chunk R :=
  { size := uint32 datasize, data := memcpy (fun _ => none) 0 r }

def pmodCk : Chunk sfModList :=
  let modList : sfModList :=
    { sfModSrcOper := 0, sfModDestOper := 0, modAmount := 0, sfModAmtSrcOper := 0,
      sfModTransOper := 0 }
  SetData modList sizeof_sfModList

def imodCk : Chunk sfModList :=
  let modList : sfModList :=
    { sfModSrcOper := 0, sfModDestOper := 0, modAmount := 0, sfModAmtSrcOper := 0,
      sfModTransOper := 0 }
  SetData modList sizeof_sfModList

/-! ## Further quantities and inputs the statements refer to -/

/-- Bytes before wave `i` in the sample data: the waves `0..i-1`, each with its 92 bytes of
padding. -/
def bytesBefore (waves : List WaveAudio) (i : Nat) : Nat :=
  ((waves.take i).map (fun wav => wav.dataLength + 92)).sum

/-- The `dataLength` bytes found at `wav.data`, in order. -/
def waveBytes (wav : WaveAudio) : List (Option (Fin 256)) :=
  (List.range wav.dataLength).map (fun j => wav.data.get? j)

/-- The concatenation, in wave order, of the bytes of each wave followed by 92 zero
bytes. -/
def paddedConcat (waves : List WaveAudio) : List (Option (Fin 256)) :=
  waves.flatMap (fun wav => waveBytes wav ++ List.replicate 92 (some 0))

/-- The zero-filled sample header. -/
def zeroSample : sfSample :=
  { achSampleName := "", dwStart := 0, dwEnd := 0, dwStartloop := 0, dwEndloop := 0,
    dwSampleRate := 0, byOriginalKey := 0, chCorrection := 0, wSampleLink := 0,
    sfSampleType := 0 }

/-- The regions of a bank in the order the search scans them: instrument by instrument,
and within an instrument in region order. -/
def scanOrder (bankfile : SoundBank) : List InstrumentRegion := bankfile.flatten

/-- The integer nearest to `1000 * (p - 64) / 64`, halves away from zero, by integer
division. -/
def panRounded (p : Nat) : Int :=
  if 64 ≤ p then (1000 * ((p : Int) - 64) + 32) / 64
  else -((1000 * (64 - (p : Int)) + 32) / 64)

/-- A region panned hard left. -/
def regionPanLeft : InstrumentRegion :=
  { keyLo := 0, keyHi := 127, velLo := 0, velHi := 0,
    instrInfo := { infoRoundTrip with pan := 0 } }

/-- A bank whose two instruments both refer to wave 0, with original keys 60 and 72. -/
def bankTwoKeys : SoundBank :=
  [[regionRoundTrip],
   [{ keyLo := 0, keyHi := 127, velLo := 0, velHi := 0,
      instrInfo := { infoRoundTrip with originalKey := 72 } }]]

/-- A wave whose loop ends at the last frame a 32-bit offset can name. -/
def waveLoopEndMax : WaveAudio :=
  { data := [0, 0, 0, 0], dataLength := 4, loopStart := 0, loopEnd := 4294967295,
    sampleRate := 44100, loop := true }

/-- A wave of 2^32 - 92 bytes: with its padding it fills 2^32 bytes. -/
def waveHuge : WaveAudio :=
  { data := List.replicate 4294967204 0, dataLength := 4294967204, loopStart := 0, loopEnd := 1,
    sampleRate := 44100, loop := true }

/-- A bank whose only region refers to wave 1. -/
def bankWave1 : SoundBank :=
  [[{ keyLo := 0, keyHi := 127, velLo := 0, velHi := 0,
      instrInfo := { infoRoundTrip with waveIdx := 1 } }]]

/-! ## Facts about exact real arithmetic -/

theorem realOps_lt (x y : ℝ) : realOps.lt x y = true ↔ x < y := by
  simp [realOps]

/-- The value `floor(1200 * log2 time)` over the reals. -/
theorem timeCent_real (time : ℝ) :
    realOps.floor (realOps.mul (realOps.ofRat 1200) (LogB realOps time (realOps.ofRat 2)))
      = ((⌊1200 * (Real.log time / Real.log 2)⌋ : ℤ) : ℝ) := by
  simp [realOps, LogB]

theorem timeToTimecents_real (time : ℝ) :
    timeToTimecents realOps time =
      if -12000 < ⌊1200 * (Real.log time / Real.log 2)⌋
          ∧ ⌊1200 * (Real.log time / Real.log 2)⌋ < 0 then
        ((⌊1200 * (Real.log time / Real.log 2)⌋ : ℤ) : ℝ) + 65536
      else if ⌊1200 * (Real.log time / Real.log 2)⌋ < -12000 then -12000
      else ((⌊1200 * (Real.log time / Real.log 2)⌋ : ℤ) : ℝ) := by
  unfold timeToTimecents
  simp only [timeCent_real]
  simp only [realOps, Bool.and_eq_true, decide_eq_true_eq]
  have h1 : ∀ z : ℤ, ((-12000 : ℚ) : ℝ) < (z : ℝ) ↔ -12000 < z := by
    intro z
    have : ((-12000 : ℚ) : ℝ) = ((-12000 : ℤ) : ℝ) := by norm_num
    rw [this, Int.cast_lt]
  have h2 : ∀ z : ℤ, (z : ℝ) < ((0 : ℚ) : ℝ) ↔ z < 0 := by
    intro z
    have : ((0 : ℚ) : ℝ) = ((0 : ℤ) : ℝ) := by norm_num
    rw [this, Int.cast_lt]
  have h3 : ∀ z : ℤ, (z : ℝ) < ((-12000 : ℚ) : ℝ) ↔ z < -12000 := by
    intro z
    have : ((-12000 : ℚ) : ℝ) = ((-12000 : ℤ) : ℝ) := by norm_num
    rw [this, Int.cast_lt]
  simp only [h1, h2, h3]
  split_ifs <;> norm_num

theorem log2_lt_of_lt_pow {t : ℝ} (ht : 0 < t) (k : ℤ) (h : t < (2 : ℝ) ^ k) :
    Real.log t / Real.log 2 < k := by
  have hlog2 : 0 < Real.log 2 := Real.log_pos (by norm_num)
  rw [div_lt_iff₀ hlog2]
  have := Real.log_lt_log ht h
  rwa [Real.log_zpow] at this

theorem timeToTimecents_real_small (t : ℝ) (ht : 0 < t) (h : t < 1 / 1024) :
    timeToTimecents realOps t = -12000 := by
  have hl : Real.log t / Real.log 2 < ((-10 : ℤ) : ℝ) :=
    log2_lt_of_lt_pow ht (-10) (by norm_num at h ⊢; linarith)
  have hfl : ⌊1200 * (Real.log t / Real.log 2)⌋ < -12000 := by
    rw [Int.floor_lt]
    push_cast at hl ⊢
    linarith
  rw [timeToTimecents_real]
  have hn : ¬ (-12000 < ⌊1200 * (Real.log t / Real.log 2)⌋
      ∧ ⌊1200 * (Real.log t / Real.log 2)⌋ < 0) := by
    intro hh
    omega
  rw [if_neg hn, if_pos hfl]

theorem timeToTimecents_real_range (t : ℝ) (ht : 0 < t) (h : t < 16) :
    -12000 ≤ timeToTimecents realOps t ∧ timeToTimecents realOps t < 65536 := by
  have hl : Real.log t / Real.log 2 < ((4 : ℤ) : ℝ) :=
    log2_lt_of_lt_pow ht 4 (by norm_num; linarith)
  have hfl : ⌊1200 * (Real.log t / Real.log 2)⌋ < 4800 := by
    rw [Int.floor_lt]
    push_cast at hl ⊢
    linarith
  rw [timeToTimecents_real]
  split_ifs with h1 h2
  · obtain ⟨ha, hb⟩ := h1
    have ha' : ((-12000 : ℤ) : ℝ) < (⌊1200 * (Real.log t / Real.log 2)⌋ : ℝ) := Int.cast_lt.mpr ha
    have hb' : (⌊1200 * (Real.log t / Real.log 2)⌋ : ℝ) < ((0 : ℤ) : ℝ) := Int.cast_lt.mpr hb
    push_cast at ha' hb'
    constructor <;> linarith
  · norm_num
  · have ha : (-12000 : ℤ) ≤ ⌊1200 * (Real.log t / Real.log 2)⌋ := by omega
    have ha' : ((-12000 : ℤ) : ℝ) ≤ (⌊1200 * (Real.log t / Real.log 2)⌋ : ℝ) := Int.cast_le.mpr ha
    have hb' : (⌊1200 * (Real.log t / Real.log 2)⌋ : ℝ) < ((4800 : ℤ) : ℝ) := Int.cast_lt.mpr hfl
    push_cast at ha' hb'
    constructor <;> linarith

theorem attackTable_bounds : ∀ x ∈ attackTable, 0 < x ∧ x ≤ 13122 := by
  simp only [attackTable, List.forall_mem_cons]
  norm_num

theorem attackTable_length : attackTable.length = 128 := by
  simp [attackTable]

theorem tableAt_mem (table : List ℚ) (i : Nat) (h : i < table.length) :
    tableAt table i ∈ table := by
  unfold tableAt
  rw [List.getD_eq_getElem _ _ h]
  exact List.getElem_mem _

theorem decayTable_at_127 : tableAt decayTable 127 = -65535 := by
  simp [tableAt, decayTable]

/-- C5: for an `InstrInfo` whose curve indices lie in 0..127, `decay == 127` makes
`envelopeFromInfo` return `decay_time` exactly -12000 and `release == 127` makes it return
`release_time` exactly -12000, for every `sustain`, every other field and every arithmetic
on doubles. -/
theorem envelopeFromInfo_127_forces_min {F : Type} (ops : DoubleOps F) (info : InstrInfo)
    (hrange : info.attack.val ≤ 127 ∧ info.hold.val ≤ 127 ∧ info.decay.val ≤ 127 ∧
      info.sustain.val ≤ 127 ∧ info.release.val ≤ 127) :
    (info.decay = 127 → (envelopeFromInfo ops info).decay_time = ops.ofRat (-12000)) ∧
    (info.release = 127 → (envelopeFromInfo ops info).release_time = ops.ofRat (-12000)) := by
  constructor
  · intro h
    simp [envelopeFromInfo, h]
  · intro h
    simp [envelopeFromInfo, h]

theorem envelopeFromInfo_127_forces_min_witness :
    (envelopeFromInfo floatOps infoRoundTrip).decay_time = floatOps.ofRat (-12000) ∧
    (envelopeFromInfo floatOps infoRoundTrip).release_time = floatOps.ofRat (-12000) :=
  ⟨(envelopeFromInfo_127_forces_min floatOps infoRoundTrip (by decide)).1 rfl,
   (envelopeFromInfo_127_forces_min floatOps infoRoundTrip (by decide)).2 rfl⟩

theorem neg9025_branch_at_127 :
    timeToTimecents realOps
      (realOps.div (realOps.div (realOps.ofRat (-90.25)) (realOps.ofRat (tableAt decayTable 127)))
        (realOps.ofRat 1000)) = realOps.ofRat (-12000) := by
  rw [decayTable_at_127]
  have h : realOps.div (realOps.div (realOps.ofRat (-90.25)) (realOps.ofRat (-65535)))
      (realOps.ofRat 1000) = (90.25 / 65535 / 1000 : ℝ) := by
    simp only [realOps]
    norm_num
  rw [h, timeToTimecents_real_small _ (by norm_num) (by norm_num)]
  simp [realOps]

/-- C6: with `sustain == 0`, over exact real arithmetic, `envelopeFromInfo` returns
`sustain_level` 900, and for every `decay` and `release` the two times have the value of the
-90.25 formula: `decay_time = timeToTimecents(-90.25 / decayTable[decay] / 1000)` and
`release_time = timeToTimecents(-90.25 / decayTable[release] / 1000)`. -/
theorem envelopeFromInfo_sustain_zero (info : InstrInfo) (h : info.sustain = 0) :
    (envelopeFromInfo realOps info).sustain_level = 900 ∧
    (envelopeFromInfo realOps info).decay_time =
      timeToTimecents realOps
        (realOps.div
          (realOps.div (realOps.ofRat (-90.25)) (realOps.ofRat (tableAt decayTable info.decay.val)))
          (realOps.ofRat 1000)) ∧
    (envelopeFromInfo realOps info).release_time =
      timeToTimecents realOps
        (realOps.div
          (realOps.div (realOps.ofRat (-90.25))
            (realOps.ofRat (tableAt decayTable info.release.val)))
          (realOps.ofRat 1000)) := by
  refine ⟨?_, ?_, ?_⟩
  · simp [envelopeFromInfo, h, realOps]
  · by_cases hd : info.decay = 127
    · have hv : info.decay.val = 127 := by rw [hd]; rfl
      rw [hv, neg9025_branch_at_127]
      simp [envelopeFromInfo, hd]
    · simp [envelopeFromInfo, h, hd]
  · by_cases hr : info.release = 127
    · have hv : info.release.val = 127 := by rw [hr]; rfl
      rw [hv, neg9025_branch_at_127]
      simp [envelopeFromInfo, hr]
    · simp [envelopeFromInfo, h, hr]

theorem envelopeFromInfo_sustain_zero_witness :
    (envelopeFromInfo realOps infoRoundTrip).sustain_level = 900 ∧
    (envelopeFromInfo realOps infoRoundTrip).decay_time =
      timeToTimecents realOps
        (realOps.div
          (realOps.div (realOps.ofRat (-90.25))
            (realOps.ofRat (tableAt decayTable infoRoundTrip.decay.val)))
          (realOps.ofRat 1000)) ∧
    (envelopeFromInfo realOps infoRoundTrip).release_time =
      timeToTimecents realOps
        (realOps.div
          (realOps.div (realOps.ofRat (-90.25))
            (realOps.ofRat (tableAt decayTable infoRoundTrip.release.val)))
          (realOps.ofRat 1000)) :=
  envelopeFromInfo_sustain_zero infoRoundTrip rfl

/-- C7: over exact real arithmetic, for every attack index in 0..126 the value
`attack_time = timeToTimecents(attackTable[attack] / 1000)` returned by `envelopeFromInfo`
lies in the half-open interval from -12000 to 65536. -/
theorem attack_time_range (info : InstrInfo) (h : info.attack.val ≤ 126) :
    (envelopeFromInfo realOps info).attack_time =
      timeToTimecents realOps
        (realOps.div (realOps.ofRat (tableAt attackTable info.attack.val)) (realOps.ofRat 1000)) ∧
    -12000 ≤ (envelopeFromInfo realOps info).attack_time ∧
    (envelopeFromInfo realOps info).attack_time < 65536 := by
  have hmem := tableAt_mem attackTable info.attack.val (by rw [attackTable_length]; omega)
  obtain ⟨hpos, hle⟩ := attackTable_bounds _ hmem
  have hposR : (0 : ℝ) < ((tableAt attackTable info.attack.val : ℚ) : ℝ) := by exact_mod_cast hpos
  have hleR : ((tableAt attackTable info.attack.val : ℚ) : ℝ) ≤ 13122 := by exact_mod_cast hle
  have hval : realOps.div (realOps.ofRat (tableAt attackTable info.attack.val))
      (realOps.ofRat 1000) = ((tableAt attackTable info.attack.val : ℚ) : ℝ) / 1000 := by
    simp [realOps]
  have hrange := timeToTimecents_real_range
    (((tableAt attackTable info.attack.val : ℚ) : ℝ) / 1000) (by positivity) (by linarith)
  refine ⟨rfl, ?_, ?_⟩
  · show -12000 ≤ timeToTimecents realOps _
    rw [hval]; exact hrange.1
  · show timeToTimecents realOps _ < 65536
    rw [hval]; exact hrange.2

theorem attack_time_range_witness :
    -12000 ≤ (envelopeFromInfo realOps infoRoundTrip).attack_time ∧
    (envelopeFromInfo realOps infoRoundTrip).attack_time < 65536 :=
  (attack_time_range infoRoundTrip (by decide)).2

/-! ## Loops and buffers -/

theorem forLoop_zero {σ : Type} (body : Nat → σ → σ) (init : σ) : forLoop 0 body init = init := by
  simp [forLoop]

theorem forLoop_succ {σ : Type} (n : Nat) (body : Nat → σ → σ) (init : σ) :
    forLoop (n + 1) body init = body n (forLoop n body init) := by
  simp [forLoop, List.range_succ, List.foldl_append]

theorem memcpy_same {R : Type} (data : Nat → Option R) (offset : Nat) (r : R) :
    memcpy data offset r offset = some r := by
  simp [memcpy]

theorem memcpy_other {R : Type} (data : Nat → Option R) (offset off : Nat) (r : R)
    (h : off ≠ offset) : memcpy data offset r off = data off := by
  simp [memcpy, h]

/-- A loop that copies record `f i` to slot `i` leaves `f k` in every slot `k` below the bound
and the other slots as they were. -/
theorem forLoop_memcpy_slot {R : Type} (recSize : Nat) (hs : 0 < recSize) (f : Nat → R)
    (init : Nat → Option R) (n k : Nat) :
    forLoop n (fun i data => memcpy data (i * recSize) (f i)) init (k * recSize)
      = if k < n then some (f k) else init (k * recSize) := by
  induction n with
  | zero => simp [forLoop_zero]
  | succ n ih =>
    rw [forLoop_succ]
    by_cases hk : k = n
    · subst hk
      simp [memcpy]
    · have hne : k * recSize ≠ n * recSize := by
        intro h
        exact hk (Nat.eq_of_mul_eq_mul_right hs h)
      rw [memcpy_other _ _ _ _ hne, ih]
      by_cases hlt : k < n
      · simp [hlt, Nat.lt_succ_of_lt hlt]
      · have : ¬ k < n + 1 := by omega
        simp [hlt, this]

/-! ## The preset chain: `phdr`, `pbag`, `pgen` -/

theorem phdrCk_data (bankfile : SoundBank) (k : Nat) :
    (phdrCk bankfile).data (k * sizeof_sfPresetHeader) =
      if k = getInstrCount bankfile then
        some { achPresetName := "", wPreset := 0, wBank := 0,
               wPresetBagNdx := uint16 (getInstrCount bankfile),
               dwLibrary := 0, dwGenre := 0, dwMorphology := 0 }
      else if k < getInstrCount bankfile then
        some { achPresetName := instrName k, wPreset := uint16 k, wBank := 0,
               wPresetBagNdx := uint16 k, dwLibrary := 0, dwGenre := 0, dwMorphology := 0 }
      else none := by
  unfold phdrCk
  simp only []
  by_cases hk : k = getInstrCount bankfile
  · subst hk
    simp [memcpy]
  · have hne : k * sizeof_sfPresetHeader ≠ getInstrCount bankfile * sizeof_sfPresetHeader := by
      intro h
      exact hk (Nat.eq_of_mul_eq_mul_right (by decide) h)
    rw [memcpy_other _ _ _ _ hne, forLoop_memcpy_slot _ (by decide)]
    simp [hk]

theorem pbagCk_data (bankfile : SoundBank) (k : Nat) :
    (pbagCk bankfile).data (k * sizeof_sfPresetBag) =
      if k ≤ getInstrCount bankfile then
        some { wGenNdx := uint16 (k * ITEMS_IN_PGEN), wModNdx := 0 }
      else none := by
  unfold pbagCk
  simp only []
  by_cases hk : k = getInstrCount bankfile
  · subst hk
    simp [memcpy]
  · have hne : k * sizeof_sfPresetBag ≠ getInstrCount bankfile * sizeof_sfPresetBag := by
      intro h
      exact hk (Nat.eq_of_mul_eq_mul_right (by decide) h)
    rw [memcpy_other _ _ _ _ hne, forLoop_memcpy_slot _ (by decide)]
    by_cases hlt : k < getInstrCount bankfile
    · simp [hlt, Nat.le_of_lt hlt]
    · have : ¬ k ≤ getInstrCount bankfile := by omega
      simp [hlt, this]

/-- The `pgen` loop, as in `pgenCk`. -/
theorem pgenLoop_state (n : Nat) :
    (forLoop n (fun i (st : (Nat → Option sfGenList) × Nat) =>
      let instrReverb : Int := 0
      let st := emit sizeof_sfGenList
        { sfGenOper := .reverbEffectsSend, genAmount := .shAmount (instrReverb * 1000) } st
      emit sizeof_sfGenList
        { sfGenOper := .instrument, genAmount := .wAmount (uint16 i) } st)
      ((fun _ => none), 0)).2 = n * 8 ∧
    ∀ off,
      (forLoop n (fun i (st : (Nat → Option sfGenList) × Nat) =>
        let instrReverb : Int := 0
        let st := emit sizeof_sfGenList
          { sfGenOper := .reverbEffectsSend, genAmount := .shAmount (instrReverb * 1000) } st
        emit sizeof_sfGenList
          { sfGenOper := .instrument, genAmount := .wAmount (uint16 i) } st)
        ((fun _ => none), 0)).1 off =
      if off < n * 8 ∧ off % 8 = 0 then
        some { sfGenOper := .reverbEffectsSend, genAmount := .shAmount 0 }
      else if off < n * 8 ∧ off % 8 = 4 then
        some { sfGenOper := .instrument, genAmount := .wAmount (uint16 (off / 8)) }
      else none := by
  induction n with
  | zero => simp [forLoop_zero]
  | succ n ih =>
    rw [forLoop_succ]
    generalize forLoop n _ _ = st at ih ⊢
    obtain ⟨data, dataPtr⟩ := st
    obtain ⟨ih2, ih1⟩ := ih
    simp only at ih2 ih1
    subst ih2
    constructor
    · simp only [emit, sizeof_sfGenList]
      omega
    · intro off
      simp only [emit, sizeof_sfGenList, memcpy, ih1]
      by_cases h1 : off = n * 8 + 4
      · subst h1
        have e1 : (n * 8 + 4) % 8 = 4 := by omega
        have e2 : (n * 8 + 4) / 8 = n := by omega
        have e3 : n * 8 + 4 < (n + 1) * 8 := by omega
        simp [e1, e2, e3]
      · by_cases h2 : off = n * 8
        · subst h2
          have e1 : (n * 8) % 8 = 0 := by omega
          have e3 : n * 8 < (n + 1) * 8 := by omega
          simp [e1, e3]
        · simp only [h1, h2, if_false]
          by_cases h3 : off < n * 8
          · have e3 : off < (n + 1) * 8 := by omega
            simp [h3, e3]
          · have e4 : ¬ (off < (n + 1) * 8 ∧ off % 8 = 0) := by omega
            have e5 : ¬ (off < (n + 1) * 8 ∧ off % 8 = 4) := by omega
            simp [h3, e4, e5]

theorem pgenCk_data (bankfile : SoundBank) (off : Nat) :
    (pgenCk bankfile).data off =
      if off = getInstrCount bankfile * 8 then
        some { sfGenOper := .startAddrsOffset, genAmount := .wAmount 0 }
      else if off < getInstrCount bankfile * 8 ∧ off % 8 = 0 then
        some { sfGenOper := .reverbEffectsSend, genAmount := .shAmount 0 }
      else if off < getInstrCount bankfile * 8 ∧ off % 8 = 4 then
        some { sfGenOper := .instrument, genAmount := .wAmount (uint16 (off / 8)) }
      else none := by
  unfold pgenCk
  simp only []
  obtain ⟨h2, h1⟩ := pgenLoop_state (getInstrCount bankfile)
  rw [h2]
  simp only [memcpy, h1]

/-- C9, amended with the bound the 16-bit fields impose: for every bank with n ≤ 32767
instruments and every i < n, preset header i has preset number i and bag index i, preset bag i
has generator index 2*i, the preset-generator array holds at positions 2*i and 2*i+1 the pair
(reverbEffectsSend, 0), (instrument, i), the sentinel preset header has bag index n and the
sentinel preset bag has generator index 2*n. -/
theorem preset_chain (bankfile : SoundBank) (i : Nat)
    (hn : getInstrCount bankfile ≤ 32767) (hi : i < getInstrCount bankfile) :
    (phdrCk bankfile).data (i * sizeof_sfPresetHeader) =
      some { achPresetName := instrName i, wPreset := i, wBank := 0, wPresetBagNdx := i,
             dwLibrary := 0, dwGenre := 0, dwMorphology := 0 } ∧
    (pbagCk bankfile).data (i * sizeof_sfPresetBag) = some { wGenNdx := 2 * i, wModNdx := 0 } ∧
    (pgenCk bankfile).data (2 * i * sizeof_sfGenList) =
      some { sfGenOper := .reverbEffectsSend, genAmount := .shAmount 0 } ∧
    (pgenCk bankfile).data ((2 * i + 1) * sizeof_sfGenList) =
      some { sfGenOper := .instrument, genAmount := .wAmount i } ∧
    Option.map sfPresetHeader.wPresetBagNdx
      ((phdrCk bankfile).data (getInstrCount bankfile * sizeof_sfPresetHeader)) =
      some (getInstrCount bankfile) ∧
    (pbagCk bankfile).data (getInstrCount bankfile * sizeof_sfPresetBag) =
      some { wGenNdx := 2 * getInstrCount bankfile, wModNdx := 0 } := by
  have hi16 : uint16 i = i := by unfold uint16; omega
  have hn16 : uint16 (getInstrCount bankfile) = getInstrCount bankfile := by unfold uint16; omega
  have h2i : uint16 (i * ITEMS_IN_PGEN) = 2 * i := by unfold uint16 ITEMS_IN_PGEN; omega
  have h2n : uint16 (getInstrCount bankfile * ITEMS_IN_PGEN) = 2 * getInstrCount bankfile := by
    unfold uint16 ITEMS_IN_PGEN; omega
  refine ⟨?_, ?_, ?_, ?_, ?_, ?_⟩
  · rw [phdrCk_data, if_neg (Nat.ne_of_lt hi), if_pos hi, hi16]
  · rw [pbagCk_data, if_pos (Nat.le_of_lt hi), h2i]
  · rw [pgenCk_data]
    have e0 : 2 * i * sizeof_sfGenList ≠ getInstrCount bankfile * 8 := by
      unfold sizeof_sfGenList; omega
    have e1 : 2 * i * sizeof_sfGenList < getInstrCount bankfile * 8
        ∧ 2 * i * sizeof_sfGenList % 8 = 0 := by
      unfold sizeof_sfGenList; omega
    rw [if_neg e0, if_pos e1]
  · rw [pgenCk_data]
    have e0 : (2 * i + 1) * sizeof_sfGenList ≠ getInstrCount bankfile * 8 := by
      unfold sizeof_sfGenList; omega
    have e1 : ¬ ((2 * i + 1) * sizeof_sfGenList < getInstrCount bankfile * 8
        ∧ (2 * i + 1) * sizeof_sfGenList % 8 = 0) := by
      unfold sizeof_sfGenList; omega
    have e2 : (2 * i + 1) * sizeof_sfGenList < getInstrCount bankfile * 8
        ∧ (2 * i + 1) * sizeof_sfGenList % 8 = 4 := by
      unfold sizeof_sfGenList; omega
    have e3 : (2 * i + 1) * sizeof_sfGenList / 8 = i := by
      unfold sizeof_sfGenList; omega
    rw [if_neg e0, if_neg e1, if_pos e2, e3, hi16]
  · rw [phdrCk_data, if_pos rfl, hn16]
    rfl
  · rw [pbagCk_data, if_pos (Nat.le_refl _), h2n]

theorem preset_chain_witness :
    (phdrCk bankRoundTrip).data (0 * sizeof_sfPresetHeader) =
      some { achPresetName := instrName 0, wPreset := 0, wBank := 0, wPresetBagNdx := 0,
             dwLibrary := 0, dwGenre := 0, dwMorphology := 0 } ∧
    (pbagCk bankRoundTrip).data (0 * sizeof_sfPresetBag) = some { wGenNdx := 2 * 0, wModNdx := 0 } ∧
    (pgenCk bankRoundTrip).data (2 * 0 * sizeof_sfGenList) =
      some { sfGenOper := .reverbEffectsSend, genAmount := .shAmount 0 } ∧
    (pgenCk bankRoundTrip).data ((2 * 0 + 1) * sizeof_sfGenList) =
      some { sfGenOper := .instrument, genAmount := .wAmount 0 } ∧
    Option.map sfPresetHeader.wPresetBagNdx
      ((phdrCk bankRoundTrip).data (getInstrCount bankRoundTrip * sizeof_sfPresetHeader)) =
      some (getInstrCount bankRoundTrip) ∧
    (pbagCk bankRoundTrip).data (getInstrCount bankRoundTrip * sizeof_sfPresetBag) =
      some { wGenNdx := 2 * getInstrCount bankRoundTrip, wModNdx := 0 } :=
  preset_chain bankRoundTrip 0 (by decide) (by decide)

theorem getInstrCount_replicate (n : Nat) (regions : List InstrumentRegion) :
    getInstrCount (List.replicate n regions) = n := by
  simp [getInstrCount]

/-- C9 as stated fails at 32768 instruments: the sentinel preset bag holds generator index 0,
not 2*32768, because the field has 16 bits. -/
theorem preset_chain_counterexample :
    getInstrCount (List.replicate 32768 ([] : List InstrumentRegion)) = 32768 ∧
    (pbagCk (List.replicate 32768 [])).data (32768 * sizeof_sfPresetBag)
      = some { wGenNdx := 0, wModNdx := 0 } ∧
    (pbagCk (List.replicate 32768 [])).data (32768 * sizeof_sfPresetBag)
      ≠ some { wGenNdx := 2 * 32768, wModNdx := 0 } := by
  have h : (pbagCk (List.replicate 32768 [])).data (32768 * sizeof_sfPresetBag)
      = some { wGenNdx := 0, wModNdx := 0 } := by
    rw [pbagCk_data, getInstrCount_replicate]
    simp [uint16, ITEMS_IN_PGEN]
  refine ⟨getInstrCount_replicate _ _, h, ?_⟩
  rw [h]
  simp

/-! ## The instrument headers: `inst` -/

theorem regionsBefore_succ (bankfile : SoundBank) (i : Nat) :
    regionsBefore bankfile (i + 1)
      = regionsBefore bankfile i + (getInstrRegions bankfile i).length := by
  unfold regionsBefore getInstrRegions
  rw [List.take_succ, List.map_append, List.sum_append, List.getD_eq_getElem?_getD]
  cases bankfile[i]? with
  | none => simp
  | some regions => simp

theorem regionsBefore_mono (bankfile : SoundBank) (i j : Nat) (h : i ≤ j) :
    regionsBefore bankfile i ≤ regionsBefore bankfile j := by
  induction j with
  | zero =>
    have : i = 0 := by omega
    subst this
    exact Nat.le_refl _
  | succ j ih =>
    by_cases hij : i = j + 1
    · subst hij
      exact Nat.le_refl _
    · have := ih (by omega)
      rw [regionsBefore_succ]
      omega

/-- The `inst` loop after `m` iterations. -/
theorem instLoop_state (bankfile : SoundBank) (m : Nat) :
    (forLoop m (fun i (st : (Nat → Option sfInst) × Nat) =>
      let regions := getInstrRegions bankfile i
      let inst : sfInst := { achInstName := instrName i, wInstBagNdx := st.2 }
      let rgnCounter := uint16 (st.2 + regions.length)
      (memcpy st.1 (i * sizeof_sfInst) inst, rgnCounter)) ((fun _ => none), 0)).2
      = regionsBefore bankfile m % 65536 ∧
    ∀ k,
      (forLoop m (fun i (st : (Nat → Option sfInst) × Nat) =>
        let regions := getInstrRegions bankfile i
        let inst : sfInst := { achInstName := instrName i, wInstBagNdx := st.2 }
        let rgnCounter := uint16 (st.2 + regions.length)
        (memcpy st.1 (i * sizeof_sfInst) inst, rgnCounter)) ((fun _ => none), 0)).1
          (k * sizeof_sfInst)
      = if k < m then
          some { achInstName := instrName k, wInstBagNdx := regionsBefore bankfile k % 65536 }
        else none := by
  induction m with
  | zero => simp [forLoop_zero, regionsBefore]
  | succ m ih =>
    rw [forLoop_succ]
    generalize forLoop m _ _ = st at ih ⊢
    obtain ⟨data, rgnCounter⟩ := st
    obtain ⟨ih2, ih1⟩ := ih
    simp only at ih2 ih1
    subst ih2
    constructor
    · simp only [uint16, regionsBefore_succ]
      omega
    · intro k
      simp only []
      by_cases hk : k = m
      · subst hk
        simp [memcpy]
      · have hne : k * sizeof_sfInst ≠ m * sizeof_sfInst := by
          intro h
          exact hk (Nat.eq_of_mul_eq_mul_right (by decide) h)
        rw [memcpy_other _ _ _ _ hne, ih1]
        by_cases hlt : k < m
        · simp [hlt, Nat.lt_succ_of_lt hlt]
        · have : ¬ k < m + 1 := by omega
          simp [hlt, this]

theorem numTotalRgns_eq (bankfile : SoundBank) :
    numTotalRgns bankfile = regionsBefore bankfile (getInstrCount bankfile) % 65536 :=
  (instLoop_state bankfile (getInstrCount bankfile)).1

theorem instCk_data (bankfile : SoundBank) (k : Nat) :
    (instCk bankfile).data (k * sizeof_sfInst) =
      if k = getInstrCount bankfile then
        some { achInstName := "", wInstBagNdx := regionsBefore bankfile k % 65536 }
      else if k < getInstrCount bankfile then
        some { achInstName := instrName k, wInstBagNdx := regionsBefore bankfile k % 65536 }
      else none := by
  unfold instCk
  simp only []
  by_cases hk : k = getInstrCount bankfile
  · subst hk
    simp [memcpy, numTotalRgns_eq, uint16]
  · have hne : k * sizeof_sfInst ≠ getInstrCount bankfile * sizeof_sfInst := by
      intro h
      exact hk (Nat.eq_of_mul_eq_mul_right (by decide) h)
    rw [memcpy_other _ _ _ _ hne]
    unfold instLoop
    rw [(instLoop_state bankfile (getInstrCount bankfile)).2 k]
    simp [hk]

/-- C2, amended with the bound the 16-bit field imposes: for every bank with n instruments
and fewer than 65536 regions in total, and every i in 0..n, the i-th instrument header's bag
index equals the total number of regions of instruments 0..i-1; for i = n this is the sentinel
header, whose bag index is the total region count of the bank. -/
theorem inst_bag_index (bankfile : SoundBank) (i : Nat)
    (hR : regionsBefore bankfile (getInstrCount bankfile) < 65536)
    (hi : i ≤ getInstrCount bankfile) :
    Option.map sfInst.wInstBagNdx ((instCk bankfile).data (i * sizeof_sfInst))
      = some (regionsBefore bankfile i) := by
  have hle := regionsBefore_mono bankfile i _ hi
  have hmod : regionsBefore bankfile i % 65536 = regionsBefore bankfile i :=
    Nat.mod_eq_of_lt (by omega)
  rw [instCk_data]
  by_cases hk : i = getInstrCount bankfile
  · rw [if_pos hk, hmod]; rfl
  · rw [if_neg hk, if_pos (by omega), hmod]; rfl

theorem inst_bag_index_witness :
    Option.map sfInst.wInstBagNdx ((instCk bankRoundTrip).data (1 * sizeof_sfInst))
      = some (regionsBefore bankRoundTrip 1) :=
  inst_bag_index bankRoundTrip 1 (by decide) (by decide)

theorem inst_sentinel_singleton (regions : List InstrumentRegion) :
    Option.map sfInst.wInstBagNdx ((instCk [regions]).data (1 * sizeof_sfInst))
      = some (regions.length % 65536) := by
  rw [instCk_data]
  simp [getInstrCount, regionsBefore]

/-- C2 as stated fails at 65536 regions: for a bank of one instrument with 65536 regions the
sentinel header holds bag index 0, not the region count, because `rgnCounter` has 16 bits. -/
theorem inst_bag_index_counterexample :
    (List.replicate 65536 regionRoundTrip).length = 65536 ∧
    Option.map sfInst.wInstBagNdx
      ((instCk [List.replicate 65536 regionRoundTrip]).data (1 * sizeof_sfInst)) = some 0 := by
  refine ⟨List.length_replicate _ _, ?_⟩
  rw [inst_sentinel_singleton, List.length_replicate]

/-! ## The sample headers: `shdr` -/

theorem framesBefore_succ (waves : List WaveAudio) (i : Nat) (hi : i < waves.length) :
    framesBefore waves (i + 1)
      = framesBefore waves i + ((waves.getD i default).dataLength / 2 + 46) := by
  unfold framesBefore
  rw [List.take_succ, List.map_append, List.sum_append, List.getD_eq_getElem?_getD,
    List.getElem?_eq_getElem hi]
  simp

/-- The `shdr` loop after `m` iterations. -/
theorem shdrLoop_state (bankfile : SoundBank) (waves : List WaveAudio) (m : Nat)
    (hm : m ≤ waves.length) :
    (forLoop m (fun i (st : (Nat → Option sfSample) × Nat) =>
      let wav := waves.getD i default
      let dwStart := st.2
      let dwEnd := uint32 (dwStart + wav.dataLength / 2)
      let sampOffset := uint32 (dwEnd + 46)
      match findInstrInfo bankfile i with
      | none => (st.1, sampOffset)
      | some instrInfo =>
        let samp : sfSample :=
          { achSampleName := waveName i
            dwStart := dwStart
            dwEnd := dwEnd
            dwStartloop := uint32 (dwStart + wav.loopStart)
            dwEndloop := uint32 (dwStart + wav.loopEnd + 1)
            dwSampleRate := uint32 wav.sampleRate
            byOriginalKey := instrInfo.originalKey.val
            chCorrection := 0
            wSampleLink := 0
            sfSampleType := monoSample }
        (memcpy st.1 (i * sizeof_sfSample) samp, sampOffset)) ((fun _ => none), 0)).2
      = uint32 (framesBefore waves m) ∧
    ∀ k,
      (forLoop m (fun i (st : (Nat → Option sfSample) × Nat) =>
        let wav := waves.getD i default
        let dwStart := st.2
        let dwEnd := uint32 (dwStart + wav.dataLength / 2)
        let sampOffset := uint32 (dwEnd + 46)
        match findInstrInfo bankfile i with
        | none => (st.1, sampOffset)
        | some instrInfo =>
          let samp : sfSample :=
            { achSampleName := waveName i
              dwStart := dwStart
              dwEnd := dwEnd
              dwStartloop := uint32 (dwStart + wav.loopStart)
              dwEndloop := uint32 (dwStart + wav.loopEnd + 1)
              dwSampleRate := uint32 wav.sampleRate
              byOriginalKey := instrInfo.originalKey.val
              chCorrection := 0
              wSampleLink := 0
              sfSampleType := monoSample }
          (memcpy st.1 (i * sizeof_sfSample) samp, sampOffset)) ((fun _ => none), 0)).1
          (k * sizeof_sfSample)
      = if k < m then (findInstrInfo bankfile k).map (sampleHeader waves k) else none := by
  induction m with
  | zero => simp [forLoop_zero, framesBefore, uint32]
  | succ m ih =>
    rw [forLoop_succ]
    have ih := ih (by omega)
    generalize forLoop m _ _ = st at ih ⊢
    obtain ⟨data, sampOffset⟩ := st
    obtain ⟨ih2, ih1⟩ := ih
    simp only at ih2 ih1
    subst ih2
    have hoff : uint32 (uint32 (uint32 (framesBefore waves m)
        + (waves.getD m default).dataLength / 2) + 46) = uint32 (framesBefore waves (m + 1)) := by
      rw [framesBefore_succ waves m (by omega)]
      unfold uint32
      omega
    have hend : uint32 (uint32 (framesBefore waves m) + (waves.getD m default).dataLength / 2)
        = uint32 (framesBefore waves m + (waves.getD m default).dataLength / 2) := by
      unfold uint32
      omega
    constructor
    · simp only []
      cases findInstrInfo bankfile m with
      | none => exact hoff
      | some instrInfo => exact hoff
    · intro k
      simp only []
      by_cases hk : k = m
      · subst hk
        cases hf : findInstrInfo bankfile k with
        | none =>
          simp only [Option.map_none', Nat.lt_succ_self, if_true]
          rw [ih1]
          simp
        | some instrInfo =>
          simp only [memcpy_same, Nat.lt_succ_self, if_true, Option.map_some', sampleHeader, hend]
      · have hne : k * sizeof_sfSample ≠ m * sizeof_sfSample := by
          intro h
          exact hk (Nat.eq_of_mul_eq_mul_right (by decide) h)
        have hstep : ∀ x : (Nat → Option sfSample) × Nat,
            x.1 (k * sizeof_sfSample) = data (k * sizeof_sfSample) →
            x.1 (k * sizeof_sfSample) =
              if k < m + 1 then (findInstrInfo bankfile k).map (sampleHeader waves k)
              else none := by
          intro x hx
          rw [hx, ih1]
          by_cases hlt : k < m
          · simp [hlt, Nat.lt_succ_of_lt hlt]
          · have : ¬ k < m + 1 := by omega
            simp [hlt, this]
        cases findInstrInfo bankfile m with
        | none => exact hstep _ rfl
        | some instrInfo => exact hstep _ (memcpy_other _ _ _ _ hne)

theorem shdrCk_data (bankfile : SoundBank) (waves : List WaveAudio) (k : Nat)
    (hk : k < waves.length) :
    (shdrCk bankfile waves).data (k * sizeof_sfSample)
      = (findInstrInfo bankfile k).map (sampleHeader waves k) := by
  unfold shdrCk
  simp only []
  have hne : k * sizeof_sfSample ≠ waves.length * sizeof_sfSample := by
    intro h
    exact (Nat.ne_of_lt hk) (Nat.eq_of_mul_eq_mul_right (by decide) h)
  rw [memcpy_other _ _ _ _ hne]
  unfold shdrLoop
  rw [(shdrLoop_state bankfile waves waves.length (Nat.le_refl _)).2 k, if_pos hk]

/-- The search finds an `InstrInfo` exactly when some region of the bank refers to the wave. -/
theorem findInstrInfo_isSome_iff (bankfile : SoundBank) (i : Nat) :
    (findInstrInfo bankfile i).isSome ↔
      ∃ regions ∈ bankfile, ∃ region ∈ regions, region.instrInfo.waveIdx = i := by
  unfold findInstrInfo
  induction bankfile with
  | nil => simp
  | cons regions rest ih =>
    rw [List.findSome?_cons]
    cases hfind : (List.find? (fun instrRegion => instrRegion.instrInfo.waveIdx == i)
        regions) with
    | none =>
      simp only [Option.map_none']
      rw [ih]
      rw [List.find?_eq_none] at hfind
      constructor
      · rintro ⟨rs, hrs, r, hr, h⟩
        exact ⟨rs, List.mem_cons_of_mem _ hrs, r, hr, h⟩
      · rintro ⟨rs, hrs, r, hr, h⟩
        rcases List.mem_cons.mp hrs with h1 | h1
        · subst h1
          have := hfind r hr
          simp [h] at this
        · exact ⟨rs, h1, r, hr, h⟩
    | some region =>
      simp only [Option.map_some', Option.isSome_some, true_iff]
      have hmem := List.mem_of_find?_eq_some hfind
      have hp := List.find?_some hfind
      exact ⟨regions, List.mem_cons_self _ _, region, hmem, by simpa using hp⟩

/-- C4, amended: for every list of N waves with byte lengths L_0..L_{N-1} and every i < N such
that some region refers to wave i and the frame offsets up to the end of wave i fit in 32
bits, sample i's header has start = sum over j < i of (L_j/2 + 46) and end - start = L_i/2.
A wave no region refers to gets no header. -/
theorem shdr_start_end (bankfile : SoundBank) (waves : List WaveAudio) (i : Nat)
    (hi : i < waves.length)
    (href : ∃ regions ∈ bankfile, ∃ region ∈ regions, region.instrInfo.waveIdx = i)
    (hfit : framesBefore waves i + (waves.getD i default).dataLength / 2 < 4294967296) :
    ∃ samp, (shdrCk bankfile waves).data (i * sizeof_sfSample) = some samp ∧
      samp.dwStart = framesBefore waves i ∧
      samp.dwEnd - samp.dwStart = (waves.getD i default).dataLength / 2 := by
  rw [shdrCk_data bankfile waves i hi]
  have hsome := (findInstrInfo_isSome_iff bankfile i).mpr href
  obtain ⟨instrInfo, hinfo⟩ := Option.isSome_iff_exists.mp hsome
  refine ⟨sampleHeader waves i instrInfo, by rw [hinfo]; rfl, ?_, ?_⟩
  · simp only [sampleHeader, uint32]
    omega
  · simp only [sampleHeader, uint32]
    omega

theorem shdr_start_end_witness :
    ∃ samp, (shdrCk bankRoundTrip [waveRoundTrip]).data (0 * sizeof_sfSample) = some samp ∧
      samp.dwStart = framesBefore [waveRoundTrip] 0 ∧
      samp.dwEnd - samp.dwStart = ([waveRoundTrip].getD 0 default).dataLength / 2 :=
  shdr_start_end bankRoundTrip [waveRoundTrip] 0 (by decide)
    ⟨[regionRoundTrip], List.mem_singleton.mpr rfl, regionRoundTrip, List.mem_singleton.mpr rfl,
      rfl⟩
    (by decide)

/-- C4 as stated fails for a wave no region refers to: with two waves of which only wave 0 is
referenced, the loop takes the `continue` for wave 1 and copies no header to its slot, so the
slot does not hold start = 48 and end = 50. -/
theorem shdr_start_end_counterexample :
    1 < [waveRoundTrip, waveRoundTrip].length ∧
    (shdrCk bankRoundTrip [waveRoundTrip, waveRoundTrip]).data (1 * sizeof_sfSample) = none := by
  refine ⟨by decide, ?_⟩
  rw [shdrCk_data _ _ 1 (by decide)]
  rfl

/-! ## The instrument generators: `igen` -/

theorem emitAll_nil {R : Type} (recSize : Nat) (st : (Nat → Option R) × Nat) :
    emitAll recSize [] st = st := rfl

theorem emitAll_cons {R : Type} (recSize : Nat) (r : R) (rs : List R)
    (st : (Nat → Option R) × Nat) :
    emitAll recSize (r :: rs) st = emitAll recSize rs (emit recSize r st) := rfl

theorem emitAll_snd {R : Type} (recSize : Nat) (rs : List R) (st : (Nat → Option R) × Nat) :
    (emitAll recSize rs st).2 = st.2 + rs.length * recSize := by
  induction rs generalizing st with
  | nil => simp [emitAll_nil]
  | cons r rs ih =>
    rw [emitAll_cons, ih]
    simp only [emit, List.length_cons]
    ring

/-- Offsets below the starting `dataPtr` are not touched. -/
theorem emitAll_below {R : Type} (recSize : Nat) (rs : List R) (st : (Nat → Option R) × Nat)
    (off : Nat) (h : off < st.2) : (emitAll recSize rs st).1 off = st.1 off := by
  induction rs generalizing st with
  | nil => rfl
  | cons r rs ih =>
    rw [emitAll_cons, ih]
    · simp only [emit]
      exact memcpy_other _ _ _ _ (Nat.ne_of_lt h)
    · simp only [emit]
      omega

theorem emitAll_above {R : Type} (recSize : Nat) (rs : List R) (st : (Nat → Option R) × Nat)
    (off : Nat) (h : st.2 + rs.length * recSize ≤ off) (hs : 0 < recSize) :
    (emitAll recSize rs st).1 off = st.1 off := by
  induction rs generalizing st with
  | nil => rfl
  | cons r rs ih =>
    rw [emitAll_cons, ih]
    · simp only [emit]
      apply memcpy_other
      simp only [List.length_cons] at h
      have : 0 < (rs.length + 1) * recSize := Nat.mul_pos (Nat.succ_pos _) hs
      omega
    · simp only [emit, List.length_cons] at h ⊢
      have : (rs.length + 1) * recSize = rs.length * recSize + recSize := by ring
      omega

/-- The records copied by `emitAll` are read back in order from the starting `dataPtr`. -/
theorem readRecords_emitAll {R : Type} (recSize : Nat) (hs : 0 < recSize) (rs : List R)
    (st : (Nat → Option R) × Nat) :
    readRecords (emitAll recSize rs st).1 st.2 recSize rs.length = rs.map some := by
  induction rs generalizing st with
  | nil => simp [readRecords]
  | cons r rs ih =>
    rw [emitAll_cons]
    have ih' := ih (emit recSize r st)
    unfold readRecords at ih' ⊢
    rw [List.length_cons, List.range_succ_eq_map, List.map_cons, List.map_map, List.map_cons]
    congr 1
    · rw [emitAll_below]
      · simp [emit, memcpy]
      · simp only [emit]
        omega
    · rw [← ih']
      apply List.map_congr_left
      intro j _
      have e : st.2 + (j + 1) * recSize = st.2 + recSize + j * recSize := by ring
      simp only [Function.comp, emit, Nat.succ_eq_add_one, e]

/-- The body of the `igen` loop copies the key range, the velocity range when `velHi` is not
0, and then the ten fixed records. -/
theorem igenRegion_eq_emitAll {F : Type} (ops : DoubleOps F) (waves : List WaveAudio)
    (instrRegion : InstrumentRegion) (st : (Nat → Option sfInstGenList) × Nat) :
    igenRegion ops waves instrRegion st =
      emitAll sizeof_sfInstGenList
        ([{ sfGenOper := .keyRange
            genAmount := .ranges instrRegion.keyLo.val instrRegion.keyHi.val }]
          ++ (if instrRegion.velHi ≠ 0 then
                [{ sfGenOper := .velRange
                   genAmount := .ranges instrRegion.velLo.val instrRegion.velHi.val }]
              else [])
          ++ fixedGens ops waves instrRegion.instrInfo) st := by
  unfold igenRegion fixedGens
  by_cases h : instrRegion.velHi = 0
  · simp [h, emitAll]
  · simp [h, emitAll]

theorem emitAll_append {R : Type} (recSize : Nat) (rs rs' : List R)
    (st : (Nat → Option R) × Nat) :
    emitAll recSize (rs ++ rs') st = emitAll recSize rs' (emitAll recSize rs st) := by
  simp [emitAll, List.foldl_append]

theorem fixedGens_length {F : Type} (ops : DoubleOps F) (waves : List WaveAudio)
    (instrInfo : InstrInfo) : (fixedGens ops waves instrInfo).length = 10 := rfl

theorem fixedGens_no_velRange {F : Type} (ops : DoubleOps F) (waves : List WaveAudio)
    (instrInfo : InstrInfo) :
    ∀ g ∈ fixedGens ops waves instrInfo, g.sfGenOper ≠ SFGenerator.velRange := by
  intro g hg
  simp only [fixedGens, List.mem_cons, List.mem_singleton, List.not_mem_nil, or_false] at hg
  rcases hg with h | h | h | h | h | h | h | h | h | h <;> rw [h] <;> simp

/-- C3: for every region, wherever in the buffer its records start: when `velHi == 0` the
11 records copied for it contain no velRange record; when `velHi > 0` the 12 records copied
for it are the keyRange record, then one velRange record carrying (velLo, velHi), then
records none of which is a velRange record. -/
theorem igenRegion_velRange {F : Type} (ops : DoubleOps F) (waves : List WaveAudio)
    (instrRegion : InstrumentRegion) (data : Nat → Option sfInstGenList) (dataPtr : Nat) :
    (instrRegion.velHi = 0 →
      (igenRegion ops waves instrRegion (data, dataPtr)).2 = dataPtr + 11 * sizeof_sfInstGenList ∧
      ∃ gens : List sfInstGenList,
        readRecords (igenRegion ops waves instrRegion (data, dataPtr)).1 dataPtr
          sizeof_sfInstGenList 11 = gens.map some ∧
        ∀ g ∈ gens, g.sfGenOper ≠ SFGenerator.velRange) ∧
    (0 < instrRegion.velHi.val →
      (igenRegion ops waves instrRegion (data, dataPtr)).2 = dataPtr + 12 * sizeof_sfInstGenList ∧
      ∃ rest : List sfInstGenList,
        readRecords (igenRegion ops waves instrRegion (data, dataPtr)).1 dataPtr
          sizeof_sfInstGenList 12 =
          (({ sfGenOper := .keyRange
              genAmount := .ranges instrRegion.keyLo.val instrRegion.keyHi.val } : sfInstGenList)
            :: { sfGenOper := .velRange
                 genAmount := .ranges instrRegion.velLo.val instrRegion.velHi.val }
            :: rest).map some ∧
        ∀ g ∈ rest, g.sfGenOper ≠ SFGenerator.velRange) := by
  constructor
  · intro h
    have hrec := readRecords_emitAll sizeof_sfInstGenList (by decide)
      (({ sfGenOper := .keyRange
          genAmount := .ranges instrRegion.keyLo.val instrRegion.keyHi.val } : sfInstGenList)
        :: fixedGens ops waves instrRegion.instrInfo) (data, dataPtr)
    have heq := igenRegion_eq_emitAll ops waves instrRegion (data, dataPtr)
    simp only [h, ne_eq, not_true_eq_false, if_false, List.append_nil, List.singleton_append]
      at heq
    rw [heq]
    refine ⟨by rw [emitAll_snd]; rfl, _, hrec, ?_⟩
    intro g hg
    rcases List.mem_cons.mp hg with h1 | h1
    · rw [h1]; simp
    · exact fixedGens_no_velRange ops waves _ g h1
  · intro h
    have hne : instrRegion.velHi ≠ 0 := by
      intro h0
      rw [h0] at h
      exact Nat.lt_irrefl _ h
    have hrec := readRecords_emitAll sizeof_sfInstGenList (by decide)
      (({ sfGenOper := .keyRange
          genAmount := .ranges instrRegion.keyLo.val instrRegion.keyHi.val } : sfInstGenList)
        :: { sfGenOper := .velRange
             genAmount := .ranges instrRegion.velLo.val instrRegion.velHi.val }
        :: fixedGens ops waves instrRegion.instrInfo) (data, dataPtr)
    have heq := igenRegion_eq_emitAll ops waves instrRegion (data, dataPtr)
    simp only [hne, ne_eq, not_false_eq_true, if_true, List.singleton_append] at heq
    rw [heq]
    exact ⟨by rw [emitAll_snd]; rfl, _, hrec, fixedGens_no_velRange ops waves _⟩

theorem igenRegion_velRange_witness :
    (igenRegion floatOps [waveRoundTrip] regionWithVel ((fun _ => none), 0)).2
      = 0 + 12 * sizeof_sfInstGenList ∧
    ∃ rest : List sfInstGenList,
      readRecords (igenRegion floatOps [waveRoundTrip] regionWithVel ((fun _ => none), 0)).1 0
        sizeof_sfInstGenList 12 =
        (({ sfGenOper := .keyRange, genAmount := .ranges 10 20 } : sfInstGenList)
          :: { sfGenOper := .velRange, genAmount := .ranges 30 40 } :: rest).map some ∧
      ∀ g ∈ rest, g.sfGenOper ≠ SFGenerator.velRange :=
  (igenRegion_velRange floatOps [waveRoundTrip] regionWithVel (fun _ => none) 0).2 (by decide)

theorem getD_eq_get (waves : List WaveAudio) (i : Nat) (h : i < waves.length) :
    waves.getD i default = waves.get ⟨i, h⟩ := by
  rw [List.getD_eq_getElem _ _ h]
  rfl

/-- C10, amended with the bound the 16-bit sample field imposes: for every region whose
`InstrInfo` p has a valid `waveIdx` below 65536, wherever in the buffer its records start,
the records copied for it are, in this order: keyRange(keyLo, keyHi); velRange(velLo, velHi)
only if `velHi != 0`; initialAttenuation = 127 - p.volume; pan; sampleModes = loop flag of
waves[p.waveIdx]; overridingRootKey = p.originalKey; attackVolEnv, holdVolEnv, decayVolEnv,
sustainVolEnv, releaseVolEnv from `envelopeFromInfo p`; and sampleID = p.waveIdx last. -/
theorem igenRegion_records {F : Type} (ops : DoubleOps F) (waves : List WaveAudio)
    (instrRegion : InstrumentRegion) (data : Nat → Option sfInstGenList) (dataPtr : Nat)
    (hvalid : instrRegion.instrInfo.waveIdx < waves.length)
    (h16 : instrRegion.instrInfo.waveIdx < 65536) :
    ∃ gens : List sfInstGenList,
      gens =
        [({ sfGenOper := .keyRange
            genAmount := .ranges instrRegion.keyLo.val instrRegion.keyHi.val } : sfInstGenList)]
        ++ (if instrRegion.velHi ≠ 0 then
              [{ sfGenOper := .velRange
                 genAmount := .ranges instrRegion.velLo.val instrRegion.velHi.val }]
            else [])
        ++ [{ sfGenOper := .initialAttenuation
              genAmount := .shAmount (127 - (instrRegion.instrInfo.volume.val : Int)) },
            { sfGenOper := .pan
              genAmount := .shAmount (ops.toInt16 (ops.round (ops.div
                (ops.ofRat (1000 * ((instrRegion.instrInfo.pan.val : Int) - 64)))
                (ops.ofRat 64)))) },
            { sfGenOper := .sampleModes
              genAmount :=
                .wAmount (waves.get ⟨instrRegion.instrInfo.waveIdx, hvalid⟩).loop.toNat },
            { sfGenOper := .overridingRootKey
              genAmount := .wAmount instrRegion.instrInfo.originalKey.val },
            { sfGenOper := .attackVolEnv
              genAmount := .shAmount
                (ops.toInt16 (envelopeFromInfo ops instrRegion.instrInfo).attack_time) },
            { sfGenOper := .holdVolEnv
              genAmount := .shAmount
                (ops.toInt16 (envelopeFromInfo ops instrRegion.instrInfo).hold_time) },
            { sfGenOper := .decayVolEnv
              genAmount := .shAmount
                (ops.toInt16 (envelopeFromInfo ops instrRegion.instrInfo).decay_time) },
            { sfGenOper := .sustainVolEnv
              genAmount := .shAmount
                (ops.toInt16 (envelopeFromInfo ops instrRegion.instrInfo).sustain_level) },
            { sfGenOper := .releaseVolEnv
              genAmount := .shAmount
                (ops.toInt16 (envelopeFromInfo ops instrRegion.instrInfo).release_time) },
            { sfGenOper := .sampleID
              genAmount := .wAmount instrRegion.instrInfo.waveIdx }] ∧
      (igenRegion ops waves instrRegion (data, dataPtr)).2
        = dataPtr + gens.length * sizeof_sfInstGenList ∧
      readRecords (igenRegion ops waves instrRegion (data, dataPtr)).1 dataPtr
        sizeof_sfInstGenList gens.length = gens.map some := by
  have h16' : uint16 instrRegion.instrInfo.waveIdx = instrRegion.instrInfo.waveIdx :=
    Nat.mod_eq_of_lt h16
  refine ⟨_, rfl, ?_, ?_⟩
  · rw [igenRegion_eq_emitAll, emitAll_snd]
    simp only [fixedGens, List.length_append, List.length_cons, List.length_nil]
  · have hrec := readRecords_emitAll sizeof_sfInstGenList (by decide)
      ([({ sfGenOper := .keyRange
           genAmount := .ranges instrRegion.keyLo.val instrRegion.keyHi.val } : sfInstGenList)]
        ++ (if instrRegion.velHi ≠ 0 then
              [{ sfGenOper := .velRange
                 genAmount := .ranges instrRegion.velLo.val instrRegion.velHi.val }]
            else [])
        ++ fixedGens ops waves instrRegion.instrInfo) (data, dataPtr)
    rw [← igenRegion_eq_emitAll] at hrec
    simp only [fixedGens, h16', getD_eq_get waves _ hvalid] at hrec
    exact hrec

theorem igenRegion_records_witness :
    ∃ gens : List sfInstGenList,
      gens =
        [({ sfGenOper := .keyRange, genAmount := .ranges 0 127 } : sfInstGenList),
          { sfGenOper := .initialAttenuation, genAmount := .shAmount 27 },
          { sfGenOper := .pan
            genAmount := .shAmount (floatOps.toInt16 (floatOps.round (floatOps.div
              (floatOps.ofRat (1000 * ((64 : Int) - 64))) (floatOps.ofRat 64)))) },
          { sfGenOper := .sampleModes, genAmount := .wAmount 1 },
          { sfGenOper := .overridingRootKey, genAmount := .wAmount 60 },
          { sfGenOper := .attackVolEnv
            genAmount := .shAmount
              (floatOps.toInt16 (envelopeFromInfo floatOps infoRoundTrip).attack_time) },
          { sfGenOper := .holdVolEnv
            genAmount := .shAmount
              (floatOps.toInt16 (envelopeFromInfo floatOps infoRoundTrip).hold_time) },
          { sfGenOper := .decayVolEnv
            genAmount := .shAmount
              (floatOps.toInt16 (envelopeFromInfo floatOps infoRoundTrip).decay_time) },
          { sfGenOper := .sustainVolEnv
            genAmount := .shAmount
              (floatOps.toInt16 (envelopeFromInfo floatOps infoRoundTrip).sustain_level) },
          { sfGenOper := .releaseVolEnv
            genAmount := .shAmount
              (floatOps.toInt16 (envelopeFromInfo floatOps infoRoundTrip).release_time) },
          { sfGenOper := .sampleID, genAmount := .wAmount 0 }] ∧
      (igenRegion floatOps [waveRoundTrip] regionRoundTrip ((fun _ => none), 0)).2
        = 0 + gens.length * sizeof_sfInstGenList ∧
      readRecords (igenRegion floatOps [waveRoundTrip] regionRoundTrip ((fun _ => none), 0)).1 0
        sizeof_sfInstGenList gens.length = gens.map some :=
  igenRegion_records floatOps [waveRoundTrip] regionRoundTrip (fun _ => none) 0
    (by decide) (by decide)

theorem emitAll_last {R : Type} (recSize : Nat) (rs : List R) (r : R)
    (st : (Nat → Option R) × Nat) :
    (emitAll recSize (rs ++ [r]) st).1 (st.2 + rs.length * recSize) = some r := by
  rw [emitAll_append, emitAll_cons, emitAll_nil]
  simp only [emit]
  rw [emitAll_snd]
  exact memcpy_same _ _ _

/-- C10 as stated fails for a wave index of 65536 or more: with 65537 waves, a region whose
`waveIdx` is the valid index 65536 gets sampleID 0 as its last record, because the field has
16 bits. -/
theorem igenRegion_records_counterexample :
    regionWave65536.instrInfo.waveIdx = 65536 ∧
    regionWave65536.instrInfo.waveIdx < (List.replicate 65537 waveRoundTrip).length ∧
    (igenRegion floatOps (List.replicate 65537 waveRoundTrip) regionWave65536
        ((fun _ => none), 0)).2 = 11 * sizeof_sfInstGenList ∧
    (igenRegion floatOps (List.replicate 65537 waveRoundTrip) regionWave65536
        ((fun _ => none), 0)).1 (10 * sizeof_sfInstGenList)
      = some { sfGenOper := .sampleID, genAmount := .wAmount 0 } := by
  refine ⟨rfl, ?_, ?_, ?_⟩
  · rw [List.length_replicate]
    decide
  · rw [igenRegion_eq_emitAll, emitAll_snd]
    rfl
  · rw [igenRegion_eq_emitAll]
    have h := emitAll_last sizeof_sfInstGenList
      ([({ sfGenOper := .keyRange
           genAmount := .ranges regionWave65536.keyLo.val regionWave65536.keyHi.val }
          : sfInstGenList)]
        ++ (fixedGens floatOps (List.replicate 65537 waveRoundTrip)
              regionWave65536.instrInfo).dropLast)
      { sfGenOper := .sampleID, genAmount := .wAmount 0 } ((fun _ => none), 0)
    exact h

/-- C1, the code at a failing input: for one instrument with two regions without velocity
range, instrument bag 1 holds generator index 12 and the sentinel bag 24, while region 0 gets
11 generator records and both regions together 22: record 11 of `igen` is the keyRange record
that starts region 1 and record 12 is its second record. -/
theorem ibag_stride_mismatch :
    (ibagCk bankTwoRegions).data (1 * sizeof_sfInstBag)
      = some { wInstGenNdx := 12, wInstModNdx := 0 } ∧
    (ibagCk bankTwoRegions).data (2 * sizeof_sfInstBag)
      = some { wInstGenNdx := 24, wInstModNdx := 0 } ∧
    (igenRegion floatOps [waveRoundTrip] regionRoundTrip ((fun _ => none), 0)).2
      = 11 * sizeof_sfInstGenList ∧
    (igenLoop floatOps bankTwoRegions [waveRoundTrip]).2 = 22 * sizeof_sfInstGenList ∧
    Option.map sfGenList.sfGenOper
      ((igenCk floatOps bankTwoRegions [waveRoundTrip]).data (11 * sizeof_sfInstGenList))
      = some SFGenerator.keyRange ∧
    Option.map sfGenList.sfGenOper
      ((igenCk floatOps bankTwoRegions [waveRoundTrip]).data (12 * sizeof_sfInstGenList))
      = some SFGenerator.initialAttenuation := by
  refine ⟨by decide, by decide, by decide, by decide, by decide, by decide⟩

/-- C8, the code at a failing input: for the bank with one region without velocity range the
computed size of `igen` is 52 bytes, 13 records, while 48 bytes are copied: 11 generator
records and the terminal record; the last slot of the chunk is never written. -/
theorem igen_size_mismatch :
    (igenCk floatOps bankRoundTrip [waveRoundTrip]).size = 13 * sizeof_sfInstGenList ∧
    (igenLoop floatOps bankRoundTrip [waveRoundTrip]).2 + sizeof_sfInstGenList
      = 12 * sizeof_sfInstGenList ∧
    (igenCk floatOps bankRoundTrip [waveRoundTrip]).data (11 * sizeof_sfInstGenList)
      = some { sfGenOper := .startAddrsOffset, genAmount := .wAmount 0 } ∧
    ((igenCk floatOps bankRoundTrip [waveRoundTrip]).records sizeof_sfInstGenList).length = 13 ∧
    (igenCk floatOps bankRoundTrip [waveRoundTrip]).data (12 * sizeof_sfInstGenList) = none := by
  refine ⟨by decide, by decide, by decide, by decide, by decide⟩

/-! ## The instrument bags against the generators copied -/

theorem igenRegion_snd {F : Type} (ops : DoubleOps F) (waves : List WaveAudio)
    (instrRegion : InstrumentRegion) (st : (Nat → Option sfInstGenList) × Nat) :
    (igenRegion ops waves instrRegion st).2
      = st.2 + gensOfRegion instrRegion * sizeof_sfInstGenList := by
  rw [igenRegion_eq_emitAll, emitAll_snd]
  unfold gensOfRegion
  by_cases h : instrRegion.velHi = 0
  · simp [h, fixedGens]
  · simp [h, fixedGens]

theorem igenRegions_snd {F : Type} (ops : DoubleOps F) (waves : List WaveAudio)
    (regions : List InstrumentRegion) (st : (Nat → Option sfInstGenList) × Nat) :
    (regions.foldl (fun st instrRegion => igenRegion ops waves instrRegion st) st).2
      = st.2 + (regions.map gensOfRegion).sum * sizeof_sfInstGenList := by
  induction regions generalizing st with
  | nil => simp
  | cons r rs ih =>
    rw [List.foldl_cons, ih, igenRegion_snd]
    simp only [List.map_cons, List.sum_cons]
    ring

theorem gensBefore_succ (bankfile : SoundBank) (i : Nat) :
    gensBefore bankfile (i + 1)
      = gensBefore bankfile i + ((getInstrRegions bankfile i).map gensOfRegion).sum := by
  unfold gensBefore getInstrRegions
  rw [List.take_succ, List.map_append, List.sum_append, List.getD_eq_getElem?_getD]
  cases bankfile[i]? with
  | none => simp
  | some regions => simp

/-- After the `igen` loops `dataPtr` stands past the records of all regions: 11 for a region
without velocity range, 12 for one with. -/
theorem igenLoop_snd {F : Type} (ops : DoubleOps F) (bankfile : SoundBank)
    (waves : List WaveAudio) :
    (igenLoop ops bankfile waves).2
      = gensBefore bankfile (getInstrCount bankfile) * sizeof_sfInstGenList := by
  unfold igenLoop
  generalize getInstrCount bankfile = n
  induction n with
  | zero => simp [forLoop_zero, gensBefore]
  | succ n ih =>
    rw [forLoop_succ]
    generalize forLoop n _ _ = st at ih ⊢
    simp only []
    rw [igenRegions_snd, ih, gensBefore_succ]
    ring

/-- The inner `ibag` loop over the regions of one instrument. -/
theorem ibagRegions_state (regions : List InstrumentRegion) (st : IbagState) (c : Nat)
    (hc : st.rgnCounter = c) (hg : st.instGenCounter = 12 * c)
    (hfit : c + regions.length < 65536) :
    (regions.foldl (fun (st : IbagState) _ =>
      let instBag : sfInstBag := { wInstGenNdx := uint16 st.instGenCounter, wInstModNdx := 0 }
      { data := memcpy st.data (st.rgnCounter * sizeof_sfInstBag) instBag
        rgnCounter := uint16 (st.rgnCounter + 1)
        instGenCounter := st.instGenCounter + 12 }) st).rgnCounter = c + regions.length ∧
    (regions.foldl (fun (st : IbagState) _ =>
      let instBag : sfInstBag := { wInstGenNdx := uint16 st.instGenCounter, wInstModNdx := 0 }
      { data := memcpy st.data (st.rgnCounter * sizeof_sfInstBag) instBag
        rgnCounter := uint16 (st.rgnCounter + 1)
        instGenCounter := st.instGenCounter + 12 }) st).instGenCounter
      = 12 * (c + regions.length) ∧
    ∀ k,
      (regions.foldl (fun (st : IbagState) _ =>
        let instBag : sfInstBag := { wInstGenNdx := uint16 st.instGenCounter, wInstModNdx := 0 }
        { data := memcpy st.data (st.rgnCounter * sizeof_sfInstBag) instBag
          rgnCounter := uint16 (st.rgnCounter + 1)
          instGenCounter := st.instGenCounter + 12 }) st).data (k * sizeof_sfInstBag)
      = if c ≤ k ∧ k < c + regions.length then
          some { wInstGenNdx := uint16 (12 * k), wInstModNdx := 0 }
        else st.data (k * sizeof_sfInstBag) := by
  induction regions generalizing st c with
  | nil =>
    refine ⟨by simpa using hc, by simpa using hg, ?_⟩
    intro k
    have : ¬ (c ≤ k ∧ k < c + ([] : List InstrumentRegion).length) := by
      simp only [List.length_nil]; omega
    rw [if_neg this]
    rfl
  | cons r rs ih =>
    rw [List.foldl_cons]
    simp only [List.length_cons] at hfit ⊢
    have h1 : uint16 (st.rgnCounter + 1) = c + 1 := by
      rw [hc]; unfold uint16; omega
    obtain ⟨i1, i2, i3⟩ := ih
      { data := memcpy st.data (st.rgnCounter * sizeof_sfInstBag)
          { wInstGenNdx := uint16 st.instGenCounter, wInstModNdx := 0 }
        rgnCounter := uint16 (st.rgnCounter + 1)
        instGenCounter := st.instGenCounter + 12 } (c + 1) h1 (by simp only []; omega) (by omega)
    refine ⟨by rw [i1]; omega, by rw [i2]; omega, ?_⟩
    intro k
    rw [i3]
    by_cases hk : k = c
    · subst hk
      have e1 : ¬ (k + 1 ≤ k ∧ k < k + 1 + rs.length) := by omega
      have e2 : k ≤ k ∧ k < k + (rs.length + 1) := by omega
      rw [if_neg e1, if_pos e2]
      simp only [hc, hg, memcpy_same]
    · have hne : k * sizeof_sfInstBag ≠ st.rgnCounter * sizeof_sfInstBag := by
        rw [hc]
        intro h
        exact hk (Nat.eq_of_mul_eq_mul_right (by decide) h)
      simp only [memcpy_other _ _ _ _ hne]
      by_cases hin : c + 1 ≤ k ∧ k < c + 1 + rs.length
      · have e2 : c ≤ k ∧ k < c + (rs.length + 1) := by omega
        rw [if_pos hin, if_pos e2]
      · have e2 : ¬ (c ≤ k ∧ k < c + (rs.length + 1)) := by omega
        rw [if_neg hin, if_neg e2]

/-- The `ibag` loops after `m` instruments, for a bank with fewer than 65536 regions. -/
theorem ibagLoop_state (bankfile : SoundBank) (m : Nat)
    (hfit : regionsBefore bankfile m < 65536) :
    (forLoop m (fun i st =>
      let regions := getInstrRegions bankfile i
      regions.foldl (fun (st : IbagState) _ =>
        let instBag : sfInstBag := { wInstGenNdx := uint16 st.instGenCounter, wInstModNdx := 0 }
        { data := memcpy st.data (st.rgnCounter * sizeof_sfInstBag) instBag
          rgnCounter := uint16 (st.rgnCounter + 1)
          instGenCounter := st.instGenCounter + 12 }) st)
      { data := fun _ => none, rgnCounter := 0, instGenCounter := 0 }).rgnCounter
      = regionsBefore bankfile m ∧
    (forLoop m (fun i st =>
      let regions := getInstrRegions bankfile i
      regions.foldl (fun (st : IbagState) _ =>
        let instBag : sfInstBag := { wInstGenNdx := uint16 st.instGenCounter, wInstModNdx := 0 }
        { data := memcpy st.data (st.rgnCounter * sizeof_sfInstBag) instBag
          rgnCounter := uint16 (st.rgnCounter + 1)
          instGenCounter := st.instGenCounter + 12 }) st)
      { data := fun _ => none, rgnCounter := 0, instGenCounter := 0 }).instGenCounter
      = 12 * regionsBefore bankfile m ∧
    ∀ k,
      (forLoop m (fun i st =>
        let regions := getInstrRegions bankfile i
        regions.foldl (fun (st : IbagState) _ =>
          let instBag : sfInstBag :=
            { wInstGenNdx := uint16 st.instGenCounter, wInstModNdx := 0 }
          { data := memcpy st.data (st.rgnCounter * sizeof_sfInstBag) instBag
            rgnCounter := uint16 (st.rgnCounter + 1)
            instGenCounter := st.instGenCounter + 12 }) st)
        { data := fun _ => none, rgnCounter := 0, instGenCounter := 0 }).data
          (k * sizeof_sfInstBag)
      = if k < regionsBefore bankfile m then
          some { wInstGenNdx := uint16 (12 * k), wInstModNdx := 0 }
        else none := by
  induction m with
  | zero =>
    refine ⟨by simp [forLoop_zero, regionsBefore], by simp [forLoop_zero, regionsBefore], ?_⟩
    intro k
    simp [forLoop_zero, regionsBefore]
  | succ m ih =>
    rw [regionsBefore_succ] at hfit ⊢
    obtain ⟨i1, i2, i3⟩ := ih (by omega)
    rw [forLoop_succ]
    generalize forLoop m _ _ = st at i1 i2 i3 ⊢
    obtain ⟨j1, j2, j3⟩ := ibagRegions_state (getInstrRegions bankfile m) st
      (regionsBefore bankfile m) i1 i2 hfit
    refine ⟨j1, j2, ?_⟩
    intro k
    simp only []
    rw [j3, i3]
    by_cases hk : k < regionsBefore bankfile m
    · have e1 : ¬ (regionsBefore bankfile m ≤ k
          ∧ k < regionsBefore bankfile m + (getInstrRegions bankfile m).length) := by omega
      have e2 : k < regionsBefore bankfile m + (getInstrRegions bankfile m).length := by omega
      rw [if_neg e1, if_pos hk, if_pos e2]
    · by_cases hk2 : k < regionsBefore bankfile m + (getInstrRegions bankfile m).length
      · have e1 : regionsBefore bankfile m ≤ k
            ∧ k < regionsBefore bankfile m + (getInstrRegions bankfile m).length := by omega
        rw [if_pos e1, if_pos hk2]
      · have e1 : ¬ (regionsBefore bankfile m ≤ k
            ∧ k < regionsBefore bankfile m + (getInstrRegions bankfile m).length) := by omega
        rw [if_neg e1, if_neg hk, if_neg hk2]

/-- The instrument bags of a bank with fewer than 65536 regions: bag `k` holds generator
index `12 * k`, whatever the velocity ranges of the regions are; slot `R`, for `R` regions in
total, is the sentinel. -/
theorem ibagCk_data (bankfile : SoundBank) (k : Nat)
    (hfit : regionsBefore bankfile (getInstrCount bankfile) < 65536)
    (hk : k ≤ regionsBefore bankfile (getInstrCount bankfile)) :
    (ibagCk bankfile).data (k * sizeof_sfInstBag)
      = some { wInstGenNdx := uint16 (12 * k), wInstModNdx := 0 } := by
  unfold ibagCk
  simp only []
  obtain ⟨i1, i2, i3⟩ := ibagLoop_state bankfile (getInstrCount bankfile) hfit
  generalize forLoop (getInstrCount bankfile) _ _ = st at i1 i2 i3 ⊢
  by_cases hk2 : k = regionsBefore bankfile (getInstrCount bankfile)
  · rw [i1, i2, hk2, memcpy_same]
  · have hne : k * sizeof_sfInstBag ≠ st.rgnCounter * sizeof_sfInstBag := by
      rw [i1]
      intro h
      exact hk2 (Nat.eq_of_mul_eq_mul_right (by decide) h)
    rw [memcpy_other _ _ _ _ hne, i3, if_pos (by omega)]

/-- The generator index the code gives instrument bag `k`: for every bank with fewer than
65536 regions, R in total, every bag `k ≤ R` (the sentinel included) holds `12 * k` reduced to
16 bits, whether or not the regions before it have a velocity range. -/
theorem ibag_gen_index_fixed_stride (bankfile : SoundBank) (k : Nat)
    (hfit : regionsBefore bankfile (getInstrCount bankfile) < 65536)
    (hk : k ≤ regionsBefore bankfile (getInstrCount bankfile)) :
    Option.map sfInstBag.wInstGenNdx ((ibagCk bankfile).data (k * sizeof_sfInstBag))
      = some (12 * k % 65536) := by
  rw [ibagCk_data bankfile k hfit hk]
  rfl

theorem ibag_gen_index_fixed_stride_witness :
    Option.map sfInstBag.wInstGenNdx ((ibagCk bankTwoRegions).data (2 * sizeof_sfInstBag))
      = some (12 * 2 % 65536) :=
  ibag_gen_index_fixed_stride bankTwoRegions 2 (by decide) (by decide)

/-- The number of generator records the code copies: after the `igen` loops `dataPtr` is the
record size times the sum over all regions of 11, plus 1 for a region with `velHi != 0`. -/
theorem igen_records_copied {F : Type} (ops : DoubleOps F) (bankfile : SoundBank)
    (waves : List WaveAudio) :
    (igenLoop ops bankfile waves).2
      = ((bankfile.map (fun regions =>
            (regions.map (fun instrRegion =>
              if instrRegion.velHi ≠ 0 then 12 else 11)).sum)).sum) * sizeof_sfInstGenList := by
  rw [igenLoop_snd]
  unfold gensBefore getInstrCount gensOfRegion
  rw [List.take_length]

/-! ## The curve tables -/

theorem holdTable_length : holdTable.length = 128 := by
  simp [holdTable]

theorem decayTable_length : decayTable.length = 128 := by
  simp [decayTable]

theorem get?_eq_tableAt (table : List ℚ) (i : Nat) (h : i < table.length) :
    table.get? i = some (tableAt table i) := by
  unfold tableAt
  rw [List.getD_eq_getElem _ _ h, List.get?_eq_getElem?, List.getElem?_eq_getElem h]

theorem tableRead_eq_tableAt (table : List ℚ) (i : Nat) (h : i < table.length) :
    tableRead table i = some (tableAt table i) := by
  unfold tableRead
  exact get?_eq_tableAt table i h

theorem tableRead_past_end (table : List ℚ) (i : Nat) (h : table.length ≤ i) :
    tableRead table i = none := by
  unfold tableRead
  rw [List.get?_eq_getElem?]
  exact List.getElem?_eq_none h

/-- A read of `attackTable` that `envelopeFromInfo` performs past the end: every attack
index above 127 makes the checked function fail. -/
theorem envelopeFromInfoChecked_attack_past_end {F : Type} (ops : DoubleOps F)
    (info : InstrInfo) (h : 128 ≤ info.attack.val) :
    envelopeFromInfoChecked ops info = none := by
  unfold envelopeFromInfoChecked
  rw [tableRead_past_end _ _ (by rw [attackTable_length]; exact h)]
  rfl

/-- The checked function fails exactly when an index is above 127: a decay or release of
127 is not read from the table, and every other value of the four indices is. -/
theorem envelopeFromInfoChecked_isSome_iff {F : Type} (ops : DoubleOps F) (info : InstrInfo) :
    (envelopeFromInfoChecked ops info).isSome = true ↔
      info.attack.val ≤ 127 ∧ info.hold.val ≤ 127 ∧ info.decay.val ≤ 127 ∧
        info.release.val ≤ 127 := by
  have hread : ∀ (table : List ℚ) (i : Nat), table.length = 128 →
      (tableRead table i = none ↔ 128 ≤ i) := by
    intro table i hl
    unfold tableRead
    rw [List.get?_eq_getElem?, List.getElem?_eq_none_iff, hl]
  constructor
  · intro h
    by_contra hne
    have hnone : envelopeFromInfoChecked ops info = none := by
      by_cases ha : 128 ≤ info.attack.val
      · exact envelopeFromInfoChecked_attack_past_end ops info ha
      · have ha2 := tableRead_eq_tableAt attackTable info.attack.val
          (by rw [attackTable_length]; omega)
        by_cases hd : 128 ≤ info.decay.val
        · have hd1 : info.decay ≠ 127 := by
            intro e
            rw [e] at hd
            exact absurd hd (by decide)
          have hd2 := (hread decayTable info.decay.val decayTable_length).mpr hd
          unfold envelopeFromInfoChecked
          rw [ha2, hd2]
          by_cases h2 : info.sustain = 0 <;> simp [hd1, h2]
        · have hd2 := tableRead_eq_tableAt decayTable info.decay.val
            (by rw [decayTable_length]; omega)
          by_cases hr : 128 ≤ info.release.val
          · have hr1 : info.release ≠ 127 := by
              intro e
              rw [e] at hr
              exact absurd hr (by decide)
            have hr2 := (hread decayTable info.release.val decayTable_length).mpr hr
            unfold envelopeFromInfoChecked
            rw [ha2, hd2, hr2]
            by_cases h1 : info.decay = 127 <;> by_cases h2 : info.sustain = 0 <;>
              simp [h1, h2, hr1]
          · have hh : 128 ≤ info.hold.val := by omega
            have hh2 := (hread holdTable info.hold.val holdTable_length).mpr hh
            have hr2 := tableRead_eq_tableAt decayTable info.release.val
              (by rw [decayTable_length]; omega)
            unfold envelopeFromInfoChecked
            rw [ha2, hd2, hr2, hh2]
            by_cases h1 : info.decay = 127 <;> by_cases h2 : info.sustain = 0 <;>
              by_cases h3 : info.release = 127 <;> simp [h1, h2, h3]
    rw [hnone] at h
    exact absurd h (by simp)
  · rintro ⟨h1, h2, h3, h4⟩
    have ha := tableRead_eq_tableAt attackTable info.attack.val
      (by rw [attackTable_length]; omega)
    have hh := tableRead_eq_tableAt holdTable info.hold.val (by rw [holdTable_length]; omega)
    have hd := tableRead_eq_tableAt decayTable info.decay.val
      (by rw [decayTable_length]; omega)
    have hr := tableRead_eq_tableAt decayTable info.release.val
      (by rw [decayTable_length]; omega)
    unfold envelopeFromInfoChecked
    rw [ha, hh, hd, hr]
    by_cases c1 : info.decay = 127 <;> by_cases c2 : info.sustain = 0 <;>
      by_cases c3 : info.release = 127 <;> simp [c1, c2, c3]

/-- C18: each of the three curve tables has exactly 128 entries, so for every `InstrInfo`
whose attack, hold, decay and release are in 0..127, and for every arithmetic, each array
read that `envelopeFromInfo` performs is within its array: the function with every read
checked does not fail, and returns what `envelopeFromInfo` returns. -/
theorem table_lookups_in_bounds {F : Type} (ops : DoubleOps F) (info : InstrInfo)
    (hattack : info.attack.val ≤ 127) (hhold : info.hold.val ≤ 127)
    (hdecay : info.decay.val ≤ 127) (hrelease : info.release.val ≤ 127) :
    attackTable.length = 128 ∧ holdTable.length = 128 ∧ decayTable.length = 128 ∧
    envelopeFromInfoChecked ops info = some (envelopeFromInfo ops info) := by
  refine ⟨attackTable_length, holdTable_length, decayTable_length, ?_⟩
  have ha := tableRead_eq_tableAt attackTable info.attack.val
    (by rw [attackTable_length]; omega)
  have hh := tableRead_eq_tableAt holdTable info.hold.val (by rw [holdTable_length]; omega)
  have hd := tableRead_eq_tableAt decayTable info.decay.val
    (by rw [decayTable_length]; omega)
  have hr := tableRead_eq_tableAt decayTable info.release.val
    (by rw [decayTable_length]; omega)
  unfold envelopeFromInfoChecked envelopeFromInfo
  rw [ha, hh, hd, hr]
  by_cases h1 : info.decay = 127 <;> by_cases h2 : info.sustain = 0 <;>
    by_cases h3 : info.release = 127 <;> simp [h1, h2, h3]

theorem table_lookups_in_bounds_witness :
    attackTable.length = 128 ∧ holdTable.length = 128 ∧ decayTable.length = 128 ∧
    envelopeFromInfoChecked floatOps infoRoundTrip
      = some (envelopeFromInfo floatOps infoRoundTrip) :=
  table_lookups_in_bounds floatOps infoRoundTrip (by decide) (by decide) (by decide)
    (by decide)

/-! ## The order of the decay table -/

theorem decayTable_chain_take : (decayTable.take 115).Chain' (fun x y => y < x) := by
  simp only [decayTable, List.take, List.chain'_cons, List.chain'_singleton]
  norm_num

theorem decayTable_chain_drop : (decayTable.drop 115).Chain' (fun x y => y < x) := by
  simp only [decayTable, List.drop, List.chain'_cons, List.chain'_singleton]
  norm_num

/-- In a list whose neighbours are in decreasing order, a later entry is below an earlier
one. -/
theorem getD_lt_of_chain (l : List ℚ) (h : l.Chain' (fun x y => y < x)) (i j : Nat)
    (hij : i < j) (hj : j < l.length) : l.getD j 0 < l.getD i 0 := by
  have hp : l.Pairwise (fun x y => y < x) := by
    have ht : IsTrans ℚ (fun x y => y < x) := ⟨fun a b c hab hbc => lt_trans hbc hab⟩
    exact List.chain'_iff_pairwise.mp h
  rw [List.pairwise_iff_getElem] at hp
  have hi : i < l.length := lt_trans hij hj
  rw [List.getD_eq_getElem _ _ hj, List.getD_eq_getElem _ _ hi]
  exact hp i j hi hj hij

theorem getD_take_of_lt (l : List ℚ) (n i : Nat) (h : i < n) :
    (l.take n).getD i 0 = l.getD i 0 := by
  simp only [List.getD_eq_getElem?_getD]
  rw [List.getElem?_take_of_lt h]

theorem getD_drop_add (l : List ℚ) (n i : Nat) :
    (l.drop n).getD i 0 = l.getD (n + i) 0 := by
  simp only [List.getD_eq_getElem?_getD]
  rw [List.getElem?_drop]

/-- The decay table in index order: a larger index holds a smaller entry, except that the
entry at 114 is below those at 115..119. -/
theorem decayTable_lt (d d' : Nat) (hlt : d < d') (hd' : d' ≤ 127)
    (hex : ¬ (d = 114 ∧ d' ≤ 119)) :
    tableAt decayTable d' < tableAt decayTable d := by
  have hlow : ∀ i j : Nat, i < j → j ≤ 114 →
      tableAt decayTable j < tableAt decayTable i := by
    intro i j hij hj
    have h := getD_lt_of_chain _ decayTable_chain_take i j hij
      (by rw [List.length_take, decayTable_length]; omega)
    rw [getD_take_of_lt _ _ _ (by omega), getD_take_of_lt _ _ _ (by omega)] at h
    exact h
  have hhigh : ∀ i j : Nat, 115 ≤ i → i < j → j ≤ 127 →
      tableAt decayTable j < tableAt decayTable i := by
    intro i j hi hij hj
    have h := getD_lt_of_chain _ decayTable_chain_drop (i - 115) (j - 115) (by omega)
      (by rw [List.length_drop, decayTable_length]; omega)
    rw [getD_drop_add, getD_drop_add] at h
    have e1 : 115 + (i - 115) = i := by omega
    have e2 : 115 + (j - 115) = j := by omega
    rw [e1, e2] at h
    exact h
  have h113 : tableAt decayTable 113 = -0.09231 := by simp [tableAt, decayTable]
  have h114 : tableAt decayTable 114 = -1 := by simp [tableAt, decayTable]
  have h115 : tableAt decayTable 115 = -0.10909 := by simp [tableAt, decayTable]
  have h120 : tableAt decayTable 120 = -2 := rfl
  by_cases c1 : d' ≤ 114
  · exact hlow d d' hlt c1
  · by_cases c2 : 115 ≤ d
    · exact hhigh d d' c2 hlt hd'
    · by_cases c3 : d = 114
      · have hd120 : 120 ≤ d' := by omega
        have hle : tableAt decayTable d' ≤ tableAt decayTable 120 := by
          rcases Nat.eq_or_lt_of_le hd120 with e | l
          · rw [← e]
          · exact le_of_lt (hhigh 120 d' (by omega) l hd')
        rw [c3, h114]
        rw [h120] at hle
        linarith
      · have hd113 : d ≤ 113 := by omega
        have hle1 : tableAt decayTable 113 ≤ tableAt decayTable d := by
          rcases Nat.eq_or_lt_of_le hd113 with e | l
          · rw [e]
          · exact le_of_lt (hlow d 113 l (by omega))
        have hle2 : tableAt decayTable d' ≤ tableAt decayTable 115 := by
          have : 115 ≤ d' := by omega
          rcases Nat.eq_or_lt_of_le this with e | l
          · rw [← e]
          · exact le_of_lt (hhigh 115 d' (by omega) l hd')
        rw [h113] at hle1
        rw [h115] at hle2
        linarith

/-- Every entry of the decay table is negative. -/
theorem decayTable_neg (d : Nat) (hd : d ≤ 127) : tableAt decayTable d < 0 := by
  have h0 : tableAt decayTable 0 = -0.00016 := rfl
  rcases Nat.eq_zero_or_pos d with e | l
  · rw [e, h0]; norm_num
  · have := decayTable_lt 0 d l hd (by omega)
    rw [h0] at this
    linarith

/-- C20, the claim at indices 114 and 115: the decay table rises from -1 at index 114 to
-0.10909 at index 115, so the table is not decreasing there and, with sustain == 0, the
larger index 115 gives the longer time -90.25 / decayTable[115], above 827, against
-90.25 / decayTable[114] = 90.25. -/
theorem decayTable_decreasing_counterexample :
    tableAt decayTable 114 = -1 ∧ tableAt decayTable 115 = -0.10909 ∧
    ¬ (tableAt decayTable 115 < tableAt decayTable 114) ∧
    ¬ (-90.25 / tableAt decayTable 115 ≤ -90.25 / tableAt decayTable 114) := by
  have h114 : tableAt decayTable 114 = -1 := rfl
  have h115 : tableAt decayTable 115 = -0.10909 := rfl
  refine ⟨h114, h115, ?_, ?_⟩
  · rw [h114, h115]; norm_num
  · rw [h114, h115]; norm_num

/-- C20: the decay table is strictly decreasing in its index wherever the pair of indices
is not 114 with one of 115..119: for d < d' in 0..127 other than those, the entry at d' is
below the entry at d, both are negative, and the time -90.25 / decayTable[d'] is shorter
than -90.25 / decayTable[d].  This covers the indices 0..114 among themselves and the
indices 115..127 among themselves. -/
theorem decayTable_decreasing (d d' : Nat) (hlt : d < d') (hd' : d' ≤ 127)
    (hex : ¬ (d = 114 ∧ d' ≤ 119)) :
    tableAt decayTable d' < tableAt decayTable d ∧
    tableAt decayTable d < 0 ∧
    -90.25 / tableAt decayTable d' < -90.25 / tableAt decayTable d := by
  have h1 := decayTable_lt d d' hlt hd' hex
  have h2 := decayTable_neg d (by omega)
  have h3 := decayTable_neg d' hd'
  refine ⟨h1, h2, ?_⟩
  generalize tableAt decayTable d = y at h1 h2
  generalize tableAt decayTable d' = y' at h1 h3
  have e1 : -90.25 / y' = 90.25 / (-y') := by rw [← neg_div_neg_eq, neg_neg]
  have e2 : -90.25 / y = 90.25 / (-y) := by rw [← neg_div_neg_eq, neg_neg]
  rw [e1, e2]
  exact div_lt_div_of_pos_left (by norm_num) (by linarith) (by linarith)

theorem decayTable_decreasing_witness :
    tableAt decayTable 115 < tableAt decayTable 113 ∧
    tableAt decayTable 113 < 0 ∧
    -90.25 / tableAt decayTable 115 < -90.25 / tableAt decayTable 113 :=
  decayTable_decreasing 113 115 (by decide) (by decide) (by decide)

/-! ## The branches of `timeToTimecents` -/

theorem wrapInt16_of_small (z : Int) (h : -32768 ≤ z ∧ z < 32768) : wrapInt16 z = z := by
  unfold wrapInt16
  omega

theorem realOps_toInt16_intCast (z : Int) (h : -32768 ≤ z ∧ z < 32768) :
    realOps.toInt16 (z : ℝ) = z := by
  simp only [realOps]
  by_cases h0 : (0 : ℝ) ≤ (z : ℝ)
  · rw [if_pos h0, Int.floor_intCast, wrapInt16_of_small z h]
  · rw [if_neg h0, Int.ceil_intCast, wrapInt16_of_small z h]

/-- The value `std::round(1000 * (pan - 64) / 64.0)`, over exact real arithmetic. -/
theorem realOps_round_pan (p : Nat) :
    realOps.round (realOps.div (realOps.ofRat (1000 * (((p : Int) : ℚ) - 64)))
      (realOps.ofRat 64)) = (panRounded p : ℝ) := by
  have hx : realOps.div (realOps.ofRat (1000 * (((p : Int) : ℚ) - 64)))
      (realOps.ofRat 64) = (1000 * ((p : ℝ) - 64)) / 64 := by
    simp only [realOps]
    push_cast
    ring
  rw [hx]
  simp only [realOps]
  unfold panRounded
  by_cases hp : 64 ≤ p
  · have hnn : (0 : ℝ) ≤ 1000 * ((p : ℝ) - 64) / 64 := by
      have : (64 : ℝ) ≤ (p : ℝ) := by exact_mod_cast hp
      apply div_nonneg _ (by norm_num)
      nlinarith
    rw [if_pos hnn, if_pos hp]
    congr 1
    rw [Int.floor_eq_iff]
    have h1 : 64 * ((1000 * ((p : Int) - 64) + 32) / 64) ≤ 1000 * ((p : Int) - 64) + 32 := by
      omega
    have h2 : 1000 * ((p : Int) - 64) + 32 < 64 * ((1000 * ((p : Int) - 64) + 32) / 64) + 64 := by
      omega
    have h1' : (64 : ℝ) * (((1000 * ((p : Int) - 64) + 32) / 64 : Int) : ℝ)
        ≤ 1000 * ((p : ℝ) - 64) + 32 := by exact_mod_cast h1
    have h2' : 1000 * ((p : ℝ) - 64) + 32
        < (64 : ℝ) * (((1000 * ((p : Int) - 64) + 32) / 64 : Int) : ℝ) + 64 := by
      exact_mod_cast h2
    constructor <;> linarith
  · have hneg : ¬ (0 : ℝ) ≤ 1000 * ((p : ℝ) - 64) / 64 := by
      have : (p : ℝ) + 1 ≤ 64 := by exact_mod_cast (by omega : p + 1 ≤ 64)
      intro h
      have : 1000 * ((p : ℝ) - 64) / 64 < 0 := by
        apply div_neg_of_neg_of_pos _ (by norm_num)
        nlinarith
      linarith
    rw [if_neg hneg, if_neg hp]
    congr 1
    rw [Int.ceil_eq_iff]
    have h1 : 64 * ((1000 * (64 - (p : Int)) + 32) / 64) ≤ 1000 * (64 - (p : Int)) + 32 := by
      omega
    have h2 : 1000 * (64 - (p : Int)) + 32 < 64 * ((1000 * (64 - (p : Int)) + 32) / 64) + 64 := by
      omega
    have h1' : (64 : ℝ) * (((1000 * (64 - (p : Int)) + 32) / 64 : Int) : ℝ)
        ≤ 1000 * (64 - (p : ℝ)) + 32 := by exact_mod_cast h1
    have h2' : 1000 * (64 - (p : ℝ)) + 32
        < (64 : ℝ) * (((1000 * (64 - (p : Int)) + 32) / 64 : Int) : ℝ) + 64 := by
      exact_mod_cast h2
    push_cast
    constructor <;> linarith

theorem panRounded_bounds (p : Nat) (hp : p ≤ 255) :
    -32768 ≤ panRounded p ∧ panRounded p < 32768 := by
  unfold panRounded
  split_ifs <;> omega

theorem panRounded_facts (p : Nat) (hp : p ≤ 127) :
    (panRounded p = 0 ↔ p = 64) ∧ (p = 0 → panRounded p = -1000) ∧
    -1000 ≤ panRounded p ∧ panRounded p ≤ 1000 := by
  unfold panRounded
  refine ⟨?_, ?_, ?_, ?_⟩
  · split_ifs <;> omega
  · intro h; subst h; decide
  · split_ifs <;> omega
  · split_ifs <;> omega

/-- `panRounded p` is `1000 * (p - 64) / 64` rounded to the nearest integer, a half being
rounded away from zero. -/
theorem panRounded_nearest (p : Nat) :
    |(panRounded p : ℚ) - 1000 * ((p : ℚ) - 64) / 64| < 1 / 2 ∨
    (|(panRounded p : ℚ) - 1000 * ((p : ℚ) - 64) / 64| = 1 / 2 ∧
      |1000 * ((p : ℚ) - 64) / 64| < |(panRounded p : ℚ)|) := by
  unfold panRounded
  by_cases hp : 64 ≤ p
  · rw [if_pos hp]
    have h1 : 64 * ((1000 * ((p : Int) - 64) + 32) / 64) ≤ 1000 * ((p : Int) - 64) + 32 := by
      omega
    have h2 : 1000 * ((p : Int) - 64) + 32 < 64 * ((1000 * ((p : Int) - 64) + 32) / 64) + 64 := by
      omega
    have h1' : (64 : ℚ) * (((1000 * ((p : Int) - 64) + 32) / 64 : Int) : ℚ)
        ≤ 1000 * ((p : ℚ) - 64) + 32 := by exact_mod_cast h1
    have h2' : 1000 * ((p : ℚ) - 64) + 32
        < (64 : ℚ) * (((1000 * ((p : Int) - 64) + 32) / 64 : Int) : ℚ) + 64 := by
      exact_mod_cast h2
    have hx : (0 : ℚ) ≤ 1000 * ((p : ℚ) - 64) / 64 := by
      have : (64 : ℚ) ≤ (p : ℚ) := by exact_mod_cast hp
      apply div_nonneg _ (by norm_num)
      nlinarith
    generalize (((1000 * ((p : Int) - 64) + 32) / 64 : Int) : ℚ) = z at h1' h2' ⊢
    generalize hxd : 1000 * ((p : ℚ) - 64) / 64 = x at hx ⊢
    have hxe : 1000 * ((p : ℚ) - 64) = 64 * x := by rw [← hxd]; ring
    rw [hxe] at h1' h2'
    have hlo : -(1 / 2 : ℚ) < z - x := by linarith
    have hhi : z - x ≤ 1 / 2 := by linarith
    by_cases htie : z - x = 1 / 2
    · right
      refine ⟨by rw [htie]; norm_num, ?_⟩
      rw [abs_of_nonneg hx, abs_of_nonneg (by linarith)]
      linarith
    · left
      rw [abs_lt]
      exact ⟨hlo, lt_of_le_of_ne hhi htie⟩
  · rw [if_neg hp]
    have h1 : 64 * ((1000 * (64 - (p : Int)) + 32) / 64) ≤ 1000 * (64 - (p : Int)) + 32 := by
      omega
    have h2 : 1000 * (64 - (p : Int)) + 32 < 64 * ((1000 * (64 - (p : Int)) + 32) / 64) + 64 := by
      omega
    have h1' : (64 : ℚ) * (((1000 * (64 - (p : Int)) + 32) / 64 : Int) : ℚ)
        ≤ 1000 * (64 - (p : ℚ)) + 32 := by exact_mod_cast h1
    have h2' : 1000 * (64 - (p : ℚ)) + 32
        < (64 : ℚ) * (((1000 * (64 - (p : Int)) + 32) / 64 : Int) : ℚ) + 64 := by
      exact_mod_cast h2
    have hx : 1000 * ((p : ℚ) - 64) / 64 < 0 := by
      have : (p : ℚ) + 1 ≤ 64 := by exact_mod_cast (by omega : p + 1 ≤ 64)
      apply div_neg_of_neg_of_pos _ (by norm_num)
      nlinarith
    push_cast
    generalize (((1000 * (64 - (p : Int)) + 32) / 64 : Int) : ℚ) = w at h1' h2' ⊢
    generalize hxd : 1000 * ((p : ℚ) - 64) / 64 = x at hx ⊢
    have hxe : 1000 * (64 - (p : ℚ)) = -(64 * x) := by rw [← hxd]; ring
    rw [hxe] at h1' h2'
    have hlo : -(1 / 2 : ℚ) ≤ -w - x := by linarith
    have hhi : -w - x < 1 / 2 := by linarith
    by_cases htie : -w - x = -(1 / 2)
    · right
      refine ⟨by rw [htie]; norm_num, ?_⟩
      rw [abs_of_neg hx, abs_of_nonpos (by linarith)]
      linarith
    · left
      rw [abs_lt]
      exact ⟨lt_of_le_of_ne hlo (Ne.symm htie), hhi⟩
/-- Record `k` of a list copied by `emitAll` is read back `k` records after the starting
`dataPtr`. -/
theorem emitAll_getElem? {R : Type} (recSize : Nat) (hs : 0 < recSize) (rs : List R)
    (st : (Nat → Option R) × Nat) (k : Nat) (hk : k < rs.length) :
    (emitAll recSize rs st).1 (st.2 + k * recSize) = rs[k]? := by
  have h := readRecords_emitAll recSize hs rs st
  have h2 := congrArg (fun l => l[k]?) h
  simp only [readRecords, List.getElem?_map, List.getElem?_range hk, Option.map_some'] at h2
  rw [List.getElem?_eq_getElem hk] at h2 ⊢
  simpa using h2

/-- The pan record that `igenRegion` copies, third record of a region without velocity
range and fourth of one with. -/
theorem igenRegion_pan_record {F : Type} (ops : DoubleOps F) (waves : List WaveAudio)
    (instrRegion : InstrumentRegion) (data : Nat → Option sfInstGenList) (dataPtr : Nat) :
    (igenRegion ops waves instrRegion (data, dataPtr)).1
        (dataPtr + (if instrRegion.velHi ≠ 0 then 3 else 2) * sizeof_sfInstGenList)
      = some { sfGenOper := .pan
               genAmount := .shAmount (ops.toInt16 (ops.round (ops.div
                 (ops.ofRat (1000 * ((instrRegion.instrInfo.pan.val : Int) - 64)))
                 (ops.ofRat 64)))) } := by
  rw [igenRegion_eq_emitAll]
  by_cases h : instrRegion.velHi = 0
  · simp only [h, ne_eq, not_true_eq_false, if_false, List.append_nil]
    rw [emitAll_getElem? _ (by decide) _ (data, dataPtr) 2 (by simp [fixedGens])]
    simp [fixedGens]
  · simp only [h, ne_eq, not_false_eq_true, if_true]
    rw [emitAll_getElem? _ (by decide) _ (data, dataPtr) 3 (by simp [fixedGens])]
    simp [fixedGens]

/-- C15: over exact real arithmetic, for every region whose pan p is in 0..127, the amount
of the pan generator copied for it is 1000*(p-64)/64 rounded to the nearest integer, a half
being rounded away from zero; it is 0 exactly when p = 64, it is -1000 at p = 0, and it lies
between -1000 and 1000. -/
theorem pan_amount (waves : List WaveAudio) (instrRegion : InstrumentRegion)
    (data : Nat → Option sfInstGenList) (dataPtr : Nat)
    (hp : instrRegion.instrInfo.pan.val ≤ 127) :
    ∃ a : Int,
      (igenRegion realOps waves instrRegion (data, dataPtr)).1
          (dataPtr + (if instrRegion.velHi ≠ 0 then 3 else 2) * sizeof_sfInstGenList)
        = some { sfGenOper := .pan, genAmount := .shAmount a } ∧
      (|(a : ℚ) - 1000 * ((instrRegion.instrInfo.pan.val : ℚ) - 64) / 64| < 1 / 2 ∨
        (|(a : ℚ) - 1000 * ((instrRegion.instrInfo.pan.val : ℚ) - 64) / 64| = 1 / 2 ∧
          |1000 * ((instrRegion.instrInfo.pan.val : ℚ) - 64) / 64| < |(a : ℚ)|)) ∧
      (a = 0 ↔ instrRegion.instrInfo.pan.val = 64) ∧
      (instrRegion.instrInfo.pan.val = 0 → a = -1000) ∧
      -1000 ≤ a ∧ a ≤ 1000 := by
  refine ⟨panRounded instrRegion.instrInfo.pan.val, ?_, panRounded_nearest _,
    panRounded_facts _ hp⟩
  rw [igenRegion_pan_record, realOps_round_pan,
    realOps_toInt16_intCast _ (panRounded_bounds _ (by omega))]

theorem pan_amount_witness :
    ∃ a : Int,
      (igenRegion realOps [waveRoundTrip] regionPanLeft ((fun _ => none), 0)).1
          (0 + (if regionPanLeft.velHi ≠ 0 then 3 else 2) * sizeof_sfInstGenList)
        = some { sfGenOper := .pan, genAmount := .shAmount a } ∧
      (|(a : ℚ) - 1000 * ((regionPanLeft.instrInfo.pan.val : ℚ) - 64) / 64| < 1 / 2 ∨
        (|(a : ℚ) - 1000 * ((regionPanLeft.instrInfo.pan.val : ℚ) - 64) / 64| = 1 / 2 ∧
          |1000 * ((regionPanLeft.instrInfo.pan.val : ℚ) - 64) / 64| < |(a : ℚ)|)) ∧
      (a = 0 ↔ regionPanLeft.instrInfo.pan.val = 64) ∧
      (regionPanLeft.instrInfo.pan.val = 0 → a = -1000) ∧
      -1000 ≤ a ∧ a ≤ 1000 :=
  pan_amount [waveRoundTrip] regionPanLeft (fun _ => none) 0 (by decide)

/-! ## The search for the `InstrInfo` of a wave -/

theorem findInstrInfo_eq_scan (bankfile : SoundBank) (i : Nat) :
    findInstrInfo bankfile i =
      ((scanOrder bankfile).find? (fun instrRegion => instrRegion.instrInfo.waveIdx == i)).map
        (fun instrRegion => instrRegion.instrInfo) := by
  unfold findInstrInfo scanOrder
  induction bankfile with
  | nil => rfl
  | cons regions rest ih =>
    rw [List.findSome?_cons, List.flatten_cons, List.find?_append]
    cases hfind : List.find? (fun instrRegion => instrRegion.instrInfo.waveIdx == i) regions with
    | none => simpa using ih
    | some region => simp

/-- The search returns the `InstrInfo` of the first region, in scan order, that refers to
the wave. -/
theorem find?_of_first (regions : List InstrumentRegion) (i : Nat)
    (before after : List InstrumentRegion) (region : InstrumentRegion)
    (hsplit : regions = before ++ region :: after)
    (hregion : region.instrInfo.waveIdx = i)
    (hbefore : ∀ r ∈ before, r.instrInfo.waveIdx ≠ i) :
    regions.find? (fun instrRegion => instrRegion.instrInfo.waveIdx == i) = some region := by
  subst hsplit
  rw [List.find?_append]
  have hnone : List.find? (fun instrRegion => instrRegion.instrInfo.waveIdx == i) before
      = none := by
    rw [List.find?_eq_none]
    intro r hr
    simpa using hbefore r hr
  rw [hnone]
  simp [hregion]

/-- C16: for every wave index i below the number of waves that some region refers to, the
original key of sample header i is the `originalKey` of the `InstrInfo` of the first region
whose `waveIdx` is i, the regions being scanned instrument by instrument and, within an
instrument, in region order: every region before it in that order refers to another wave,
whatever the regions after it hold. -/
theorem shdr_original_key (bankfile : SoundBank) (waves : List WaveAudio) (i : Nat)
    (hi : i < waves.length)
    (before after : List InstrumentRegion) (region : InstrumentRegion)
    (hsplit : scanOrder bankfile = before ++ region :: after)
    (hregion : region.instrInfo.waveIdx = i)
    (hbefore : ∀ r ∈ before, r.instrInfo.waveIdx ≠ i) :
    ∃ samp, (shdrCk bankfile waves).data (i * sizeof_sfSample) = some samp ∧
      samp.byOriginalKey = region.instrInfo.originalKey.val := by
  rw [shdrCk_data bankfile waves i hi, findInstrInfo_eq_scan,
    find?_of_first _ i before after region hsplit hregion hbefore]
  exact ⟨_, rfl, rfl⟩

theorem shdr_original_key_witness :
    ∃ samp, (shdrCk bankTwoKeys [waveRoundTrip]).data (0 * sizeof_sfSample) = some samp ∧
      samp.byOriginalKey = regionRoundTrip.instrInfo.originalKey.val :=
  shdr_original_key bankTwoKeys [waveRoundTrip] 0 (by decide) []
    [{ keyLo := 0, keyHi := 127, velLo := 0, velHi := 0,
       instrInfo := { infoRoundTrip with originalKey := 72 } }]
    regionRoundTrip rfl rfl (by simp)
/-! ## Loop points, unreferenced waves and record counts -/

theorem uint32_of_lt (n : Nat) (h : n < 4294967296) : uint32 n = n :=
  Nat.mod_eq_of_lt h

/-- C11, amended with the bound the 32-bit fields impose: for every wave i that some region
refers to, if start + loopStart, start + loopEnd + 1 and the sample rate are below 2^32,
where start is the start field of its sample header, then the header has
startloop = start + wav.loopStart, endloop = start + wav.loopEnd + 1 and sample rate
wav.sampleRate. -/
theorem shdr_loop_points (bankfile : SoundBank) (waves : List WaveAudio) (i : Nat)
    (hi : i < waves.length)
    (href : ∃ regions ∈ bankfile, ∃ region ∈ regions, region.instrInfo.waveIdx = i)
    (hstart : uint32 (framesBefore waves i) + (waves.getD i default).loopStart < 4294967296)
    (hend : uint32 (framesBefore waves i) + (waves.getD i default).loopEnd + 1 < 4294967296)
    (hrate : (waves.getD i default).sampleRate < 4294967296) :
    ∃ samp, (shdrCk bankfile waves).data (i * sizeof_sfSample) = some samp ∧
      samp.dwStartloop = samp.dwStart + (waves.getD i default).loopStart ∧
      samp.dwEndloop = samp.dwStart + (waves.getD i default).loopEnd + 1 ∧
      samp.dwSampleRate = (waves.getD i default).sampleRate := by
  rw [shdrCk_data bankfile waves i hi]
  have hsome := (findInstrInfo_isSome_iff bankfile i).mpr href
  obtain ⟨instrInfo, hinfo⟩ := Option.isSome_iff_exists.mp hsome
  refine ⟨sampleHeader waves i instrInfo, by rw [hinfo]; rfl, ?_, ?_, ?_⟩
  · simp only [sampleHeader]
    exact uint32_of_lt _ hstart
  · simp only [sampleHeader]
    exact uint32_of_lt _ hend
  · simp only [sampleHeader]
    exact uint32_of_lt _ hrate

theorem shdr_loop_points_witness :
    ∃ samp, (shdrCk bankRoundTrip [waveRoundTrip]).data (0 * sizeof_sfSample) = some samp ∧
      samp.dwStartloop = samp.dwStart + ([waveRoundTrip].getD 0 default).loopStart ∧
      samp.dwEndloop = samp.dwStart + ([waveRoundTrip].getD 0 default).loopEnd + 1 ∧
      samp.dwSampleRate = ([waveRoundTrip].getD 0 default).sampleRate :=
  shdr_loop_points bankRoundTrip [waveRoundTrip] 0 (by decide)
    ⟨[regionRoundTrip], List.mem_singleton.mpr rfl, regionRoundTrip, List.mem_singleton.mpr rfl,
      rfl⟩
    (by decide) (by decide) (by decide)

/-- C11 as stated fails when the sum leaves 32 bits: for a referenced wave at start 0 whose
`loopEnd` is 4294967295 the header holds endloop 0, not start + loopEnd + 1. -/
theorem shdr_loop_points_counterexample :
    ∃ samp, (shdrCk bankRoundTrip [waveLoopEndMax]).data (0 * sizeof_sfSample) = some samp ∧
      samp.dwStart = 0 ∧ samp.dwEndloop = 0 ∧
      samp.dwEndloop ≠ samp.dwStart + ([waveLoopEndMax].getD 0 default).loopEnd + 1 := by
  rw [shdrCk_data _ _ 0 (by decide)]
  refine ⟨sampleHeader [waveLoopEndMax] 0 infoRoundTrip, rfl, by decide, by decide, by decide⟩

theorem findInstrInfo_eq_none (bankfile : SoundBank) (i : Nat)
    (hnone : ∀ regions ∈ bankfile, ∀ region ∈ regions, region.instrInfo.waveIdx ≠ i) :
    findInstrInfo bankfile i = none := by
  cases h : findInstrInfo bankfile i with
  | none => rfl
  | some instrInfo =>
    have hsome : (findInstrInfo bankfile i).isSome := by rw [h]; rfl
    obtain ⟨regions, hr, region, hreg, hw⟩ := (findInstrInfo_isSome_iff bankfile i).mp hsome
    exact absurd hw (hnone regions hr region hreg)

theorem shdrCk_terminal (bankfile : SoundBank) (waves : List WaveAudio) :
    (shdrCk bankfile waves).data (waves.length * sizeof_sfSample) = some zeroSample := by
  unfold shdrCk
  simp only []
  rw [memcpy_same]
  rfl

theorem records_length {R : Type} (ck : Chunk R) (recSize : Nat) :
    (ck.records recSize).length = ck.size / recSize := by
  simp [Chunk.records]

theorem shdrCk_size (bankfile : SoundBank) (waves : List WaveAudio) :
    (shdrCk bankfile waves).size = uint32 ((waves.length + 1) * sizeof_sfSample) := rfl

/-- C13, amended: if no region of any instrument refers to wave i, out of N waves with
(N + 1) * 46 < 2^32, the sample-header array still has N + 1 records with the zero terminal
record in slot N, every wave k keeps slot k, and a header copied to slot k has the start and
end offsets computed from the lengths of all waves before k, wave i included; no header is
copied to slot i. -/
theorem shdr_unreferenced (bankfile : SoundBank) (waves : List WaveAudio) (i : Nat)
    (hi : i < waves.length)
    (hnone : ∀ regions ∈ bankfile, ∀ region ∈ regions, region.instrInfo.waveIdx ≠ i)
    (hsize : (waves.length + 1) * sizeof_sfSample < 4294967296) :
    ((shdrCk bankfile waves).records sizeof_sfSample).length = waves.length + 1 ∧
    (shdrCk bankfile waves).data (waves.length * sizeof_sfSample) = some zeroSample ∧
    (shdrCk bankfile waves).data (i * sizeof_sfSample) = none ∧
    ∀ k samp, k < waves.length →
      (shdrCk bankfile waves).data (k * sizeof_sfSample) = some samp →
      samp.dwStart = uint32 (framesBefore waves k) ∧
      samp.dwEnd = uint32 (framesBefore waves k + (waves.getD k default).dataLength / 2) := by
  refine ⟨?_, shdrCk_terminal bankfile waves, ?_, ?_⟩
  · rw [records_length, shdrCk_size, uint32_of_lt _ hsize]
    exact Nat.mul_div_cancel _ (by decide)
  · rw [shdrCk_data bankfile waves i hi, findInstrInfo_eq_none bankfile i hnone]
    rfl
  · intro k samp hk hsamp
    rw [shdrCk_data bankfile waves k hk] at hsamp
    cases hf : findInstrInfo bankfile k with
    | none => rw [hf] at hsamp; cases hsamp
    | some instrInfo =>
      rw [hf] at hsamp
      simp only [Option.map_some', Option.some.injEq] at hsamp
      subst hsamp
      exact ⟨rfl, rfl⟩

theorem shdr_unreferenced_witness :
    ((shdrCk bankRoundTrip [waveRoundTrip, waveRoundTrip]).records sizeof_sfSample).length
      = [waveRoundTrip, waveRoundTrip].length + 1 ∧
    (shdrCk bankRoundTrip [waveRoundTrip, waveRoundTrip]).data
        ([waveRoundTrip, waveRoundTrip].length * sizeof_sfSample) = some zeroSample ∧
    (shdrCk bankRoundTrip [waveRoundTrip, waveRoundTrip]).data (1 * sizeof_sfSample) = none ∧
    ∀ k samp, k < [waveRoundTrip, waveRoundTrip].length →
      (shdrCk bankRoundTrip [waveRoundTrip, waveRoundTrip]).data (k * sizeof_sfSample)
        = some samp →
      samp.dwStart = uint32 (framesBefore [waveRoundTrip, waveRoundTrip] k) ∧
      samp.dwEnd = uint32 (framesBefore [waveRoundTrip, waveRoundTrip] k
        + ([waveRoundTrip, waveRoundTrip].getD k default).dataLength / 2) :=
  shdr_unreferenced bankRoundTrip [waveRoundTrip, waveRoundTrip] 1 (by decide)
    (by
      intro regions hr region hreg
      rw [List.mem_singleton.mp hr] at hreg
      rw [List.mem_singleton.mp hreg]
      decide)
    (by decide)

/-- C13 as stated fails in its last part: with an empty bank and one wave, slot 0 of the
sample headers is never written, so it does not hold the zero-filled header; it holds what
the newly allocated buffer held. -/
theorem shdr_unreferenced_counterexample :
    (shdrCk [] [waveRoundTrip]).data (0 * sizeof_sfSample) = none ∧
    (shdrCk [] [waveRoundTrip]).data (0 * sizeof_sfSample) ≠ some zeroSample := by
  have h : (shdrCk [] [waveRoundTrip]).data (0 * sizeof_sfSample) = none := by
    rw [shdrCk_data _ _ 0 (by decide)]
    rfl
  refine ⟨h, ?_⟩
  rw [h]
  simp
theorem numTotalRgns_singleton (regions : List InstrumentRegion) :
    numTotalRgns [regions] = regions.length % 65536 := by
  rw [numTotalRgns_eq]
  simp [getInstrCount, regionsBefore]

theorem ibagCk_size (bankfile : SoundBank) :
    (ibagCk bankfile).size = uint32 ((numTotalRgns bankfile + 1) * sizeof_sfInstBag) := rfl

/-- C14, amended with the bounds the 16-bit region counter and the 32-bit chunk sizes
impose: for every bank with n instruments, R < 65536 regions in total and W waves, with
(n + 1) * 38 < 2^32 and (W + 1) * 46 < 2^32, the record arrays have these lengths: phdr n+1,
pbag n+1, inst n+1, ibag R+1, shdr W+1, pgen 2n+1, pmod and imod 1; the pmod and imod record
and the last record of pgen and of shdr are zero in every field. -/
theorem record_counts (bankfile : SoundBank) (waves : List WaveAudio)
    (hR : regionsBefore bankfile (getInstrCount bankfile) < 65536)
    (hn : (getInstrCount bankfile + 1) * sizeof_sfPresetHeader < 4294967296)
    (hW : (waves.length + 1) * sizeof_sfSample < 4294967296) :
    ((phdrCk bankfile).records sizeof_sfPresetHeader).length = getInstrCount bankfile + 1 ∧
    ((pbagCk bankfile).records sizeof_sfPresetBag).length = getInstrCount bankfile + 1 ∧
    ((instCk bankfile).records sizeof_sfInst).length = getInstrCount bankfile + 1 ∧
    ((ibagCk bankfile).records sizeof_sfInstBag).length
      = regionsBefore bankfile (getInstrCount bankfile) + 1 ∧
    ((shdrCk bankfile waves).records sizeof_sfSample).length = waves.length + 1 ∧
    ((pgenCk bankfile).records sizeof_sfGenList).length = 2 * getInstrCount bankfile + 1 ∧
    pmodCk.records sizeof_sfModList
      = [some { sfModSrcOper := 0, sfModDestOper := 0, modAmount := 0, sfModAmtSrcOper := 0,
                sfModTransOper := 0 }] ∧
    imodCk.records sizeof_sfModList
      = [some { sfModSrcOper := 0, sfModDestOper := 0, modAmount := 0, sfModAmtSrcOper := 0,
                sfModTransOper := 0 }] ∧
    (∃ genList, (pgenCk bankfile).data (2 * getInstrCount bankfile * sizeof_sfGenList)
        = some genList ∧ genList.sfGenOper.code = 0 ∧ genList.genAmount.word = 0) ∧
    (shdrCk bankfile waves).data (waves.length * sizeof_sfSample) = some zeroSample := by
  have hn38 : (getInstrCount bankfile + 1) * 38 < 4294967296 := hn
  have hW46 : (waves.length + 1) * 46 < 4294967296 := hW
  refine ⟨?_, ?_, ?_, ?_, ?_, ?_, by decide, by decide, ?_, shdrCk_terminal bankfile waves⟩
  · rw [records_length]
    show uint32 ((getInstrCount bankfile + 1) * sizeof_sfPresetHeader) / sizeof_sfPresetHeader = _
    rw [uint32_of_lt _ hn]
    exact Nat.mul_div_cancel _ (by decide)
  · rw [records_length]
    show uint32 ((getInstrCount bankfile + 1) * sizeof_sfPresetBag) / sizeof_sfPresetBag = _
    rw [uint32_of_lt _ (by unfold sizeof_sfPresetBag; omega)]
    exact Nat.mul_div_cancel _ (by decide)
  · rw [records_length]
    show uint32 ((getInstrCount bankfile + 1) * sizeof_sfInst) / sizeof_sfInst = _
    rw [uint32_of_lt _ (by unfold sizeof_sfInst; omega)]
    exact Nat.mul_div_cancel _ (by decide)
  · rw [records_length, ibagCk_size, numTotalRgns_eq, Nat.mod_eq_of_lt hR,
      uint32_of_lt _ (by unfold sizeof_sfInstBag; omega)]
    exact Nat.mul_div_cancel _ (by decide)
  · rw [records_length, shdrCk_size, uint32_of_lt _ hW]
    exact Nat.mul_div_cancel _ (by decide)
  · rw [records_length]
    show uint32 (getInstrCount bankfile * sizeof_sfGenList * ITEMS_IN_PGEN + sizeof_sfGenList)
      / sizeof_sfGenList = _
    rw [uint32_of_lt _ (by unfold sizeof_sfGenList ITEMS_IN_PGEN; omega)]
    unfold sizeof_sfGenList ITEMS_IN_PGEN
    omega
  · refine ⟨{ sfGenOper := .startAddrsOffset, genAmount := .wAmount 0 }, ?_, rfl, rfl⟩
    rw [pgenCk_data, if_pos (by unfold sizeof_sfGenList; omega)]

theorem record_counts_witness :
    ((phdrCk bankRoundTrip).records sizeof_sfPresetHeader).length
      = getInstrCount bankRoundTrip + 1 ∧
    ((pbagCk bankRoundTrip).records sizeof_sfPresetBag).length = getInstrCount bankRoundTrip + 1 ∧
    ((instCk bankRoundTrip).records sizeof_sfInst).length = getInstrCount bankRoundTrip + 1 ∧
    ((ibagCk bankRoundTrip).records sizeof_sfInstBag).length
      = regionsBefore bankRoundTrip (getInstrCount bankRoundTrip) + 1 ∧
    ((shdrCk bankRoundTrip [waveRoundTrip]).records sizeof_sfSample).length
      = [waveRoundTrip].length + 1 ∧
    ((pgenCk bankRoundTrip).records sizeof_sfGenList).length
      = 2 * getInstrCount bankRoundTrip + 1 ∧
    pmodCk.records sizeof_sfModList
      = [some { sfModSrcOper := 0, sfModDestOper := 0, modAmount := 0, sfModAmtSrcOper := 0,
                sfModTransOper := 0 }] ∧
    imodCk.records sizeof_sfModList
      = [some { sfModSrcOper := 0, sfModDestOper := 0, modAmount := 0, sfModAmtSrcOper := 0,
                sfModTransOper := 0 }] ∧
    (∃ genList, (pgenCk bankRoundTrip).data (2 * getInstrCount bankRoundTrip * sizeof_sfGenList)
        = some genList ∧ genList.sfGenOper.code = 0 ∧ genList.genAmount.word = 0) ∧
    (shdrCk bankRoundTrip [waveRoundTrip]).data ([waveRoundTrip].length * sizeof_sfSample)
      = some zeroSample :=
  record_counts bankRoundTrip [waveRoundTrip] (by decide) (by decide) (by decide)

/-- C14 as stated fails at 65536 regions: for a bank of one instrument with 65536 regions
the `ibag` chunk is sized for 1 record, not 65537, because `numTotalRgns` comes from the
16-bit `rgnCounter`. -/
theorem record_counts_counterexample :
    (List.replicate 65536 regionRoundTrip).length = 65536 ∧
    ((ibagCk [List.replicate 65536 regionRoundTrip]).records sizeof_sfInstBag).length = 1 := by
  refine ⟨List.length_replicate _ _, ?_⟩
  rw [records_length, ibagCk_size, numTotalRgns_singleton, List.length_replicate]
  decide
/-! ## The sample data: `smpl` -/

theorem bytesBefore_succ (waves : List WaveAudio) (i : Nat) (hi : i < waves.length) :
    bytesBefore waves (i + 1) = bytesBefore waves i + ((waves.getD i default).dataLength + 92) := by
  unfold bytesBefore
  rw [List.take_succ, List.map_append, List.sum_append, List.getD_eq_getElem?_getD,
    List.getElem?_eq_getElem hi]
  simp

theorem bytesBefore_mono (waves : List WaveAudio) (i j : Nat) (h : i ≤ j)
    (hj : j ≤ waves.length) : bytesBefore waves i ≤ bytesBefore waves j := by
  induction j with
  | zero =>
    have : i = 0 := by omega
    subst this
    exact Nat.le_refl _
  | succ j ih =>
    by_cases hij : i = j + 1
    · subst hij
      exact Nat.le_refl _
    · have := ih (by omega) (by omega)
      rw [bytesBefore_succ waves j (by omega)]
      omega

theorem bytesBefore_length (waves : List WaveAudio) :
    bytesBefore waves waves.length = (waves.map (fun wav => wav.dataLength + 92)).sum := by
  unfold bytesBefore
  rw [List.take_length]

/-- The computed size of the `smpl` chunk is the sum of the padded wave lengths, reduced to
32 bits. -/
theorem smplSize_eq (waves : List WaveAudio) :
    smplSize waves = uint32 (bytesBefore waves waves.length) := by
  unfold smplSize
  have h : ∀ m, m ≤ waves.length →
      forLoop m (fun i size =>
        let wav := waves.getD i default
        uint32 (size + (wav.dataLength + 46 * 2))) 0 = uint32 (bytesBefore waves m) := by
    intro m
    induction m with
    | zero => intro _; simp [forLoop_zero, bytesBefore, uint32]
    | succ m ih =>
      intro hm
      rw [forLoop_succ, ih (by omega), bytesBefore_succ waves m (by omega)]
      simp only [uint32]
      omega
  exact h waves.length (Nat.le_refl _)

/-- The value of `bufPtr` when wave `i` is copied is the number of bytes before it, reduced
to 32 bits. -/
theorem bufPtrAt_eq (waves : List WaveAudio) (i : Nat) (hi : i ≤ waves.length) :
    bufPtrAt waves i = uint32 (bytesBefore waves i) := by
  unfold bufPtrAt smplLoopUpTo
  induction i with
  | zero => simp [forLoop_zero, bytesBefore, uint32]
  | succ m ih =>
    rw [forLoop_succ]
    have ih := ih (by omega)
    generalize forLoop m _ _ = st at ih ⊢
    simp only []
    rw [ih, bytesBefore_succ waves m (by omega)]
    simp only [uint32]
    omega

theorem smplLoopUpTo_succ (waves : List WaveAudio) (m : Nat) :
    smplLoopUpTo waves (m + 1) =
      (memsetBytes
        (memcpyBytes (smplLoopUpTo waves m).1 (smplLoopUpTo waves m).2
          (waves.getD m default).data (waves.getD m default).dataLength)
        ((smplLoopUpTo waves m).2 + (waves.getD m default).dataLength) 0 (46 * 2),
       uint32 ((smplLoopUpTo waves m).2 + ((waves.getD m default).dataLength + 46 * 2))) := by
  unfold smplLoopUpTo
  rw [forLoop_succ]

/-- One step of the `smpl` loop, when `bufPtr` has not wrapped: the bytes below `bufPtr`
stay, then come the bytes of the wave, then 92 zero bytes. -/
theorem smplLoopUpTo_step (waves : List WaveAudio) (m : Nat) (hm : m < waves.length)
    (hfit : bytesBefore waves m < 4294967296) (off : Nat) :
    (smplLoopUpTo waves (m + 1)).1 off =
      if off < bytesBefore waves m then (smplLoopUpTo waves m).1 off
      else if off < bytesBefore waves m + (waves.getD m default).dataLength then
        (waves.getD m default).data.get? (off - bytesBefore waves m)
      else if off < bytesBefore waves m + (waves.getD m default).dataLength + 92 then some 0
      else (smplLoopUpTo waves m).1 off := by
  have hptr : (smplLoopUpTo waves m).2 = bytesBefore waves m := by
    have := bufPtrAt_eq waves m (by omega)
    unfold bufPtrAt at this
    rw [this, uint32_of_lt _ hfit]
  rw [smplLoopUpTo_succ, hptr]
  simp only [memsetBytes, memcpyBytes]
  by_cases h1 : off < bytesBefore waves m
  · have e1 : ¬ (bytesBefore waves m + (waves.getD m default).dataLength ≤ off ∧
        off < bytesBefore waves m + (waves.getD m default).dataLength + 46 * 2) := by omega
    have e2 : ¬ (bytesBefore waves m ≤ off ∧
        off < bytesBefore waves m + (waves.getD m default).dataLength) := by omega
    rw [if_neg e1, if_neg e2, if_pos h1]
  · rw [if_neg h1]
    by_cases h2 : off < bytesBefore waves m + (waves.getD m default).dataLength
    · have e1 : ¬ (bytesBefore waves m + (waves.getD m default).dataLength ≤ off ∧
          off < bytesBefore waves m + (waves.getD m default).dataLength + 46 * 2) := by omega
      have e2 : bytesBefore waves m ≤ off ∧
          off < bytesBefore waves m + (waves.getD m default).dataLength := by omega
      rw [if_neg e1, if_pos e2, if_pos h2]
    · rw [if_neg h2]
      by_cases h3 : off < bytesBefore waves m + (waves.getD m default).dataLength + 92
      · have e1 : bytesBefore waves m + (waves.getD m default).dataLength ≤ off ∧
            off < bytesBefore waves m + (waves.getD m default).dataLength + 46 * 2 := by omega
        rw [if_pos e1, if_pos h3]
      · have e1 : ¬ (bytesBefore waves m + (waves.getD m default).dataLength ≤ off ∧
            off < bytesBefore waves m + (waves.getD m default).dataLength + 46 * 2) := by omega
        have e2 : ¬ (bytesBefore waves m ≤ off ∧
            off < bytesBefore waves m + (waves.getD m default).dataLength) := by omega
        rw [if_neg e1, if_neg e2, if_neg h3]

/-- Where the bytes of wave `i` and its padding lie after `m > i` waves, when nothing has
wrapped. -/
theorem smplLoopUpTo_wave (waves : List WaveAudio) (m : Nat) (hm : m ≤ waves.length)
    (hfit : bytesBefore waves m < 4294967296) (i : Nat) (hi : i < m) (j : Nat)
    (hj : j < (waves.getD i default).dataLength + 92) :
    (smplLoopUpTo waves m).1 (bytesBefore waves i + j) =
      if j < (waves.getD i default).dataLength then (waves.getD i default).data.get? j
      else some 0 := by
  induction m with
  | zero => omega
  | succ m ih =>
    have hmono := bytesBefore_mono waves m (m + 1) (by omega) hm
    rw [smplLoopUpTo_step waves m (by omega) (by omega)]
    by_cases him : i = m
    · subst him
      have e1 : ¬ (bytesBefore waves i + j < bytesBefore waves i) := by omega
      rw [if_neg e1]
      by_cases hjl : j < (waves.getD i default).dataLength
      · rw [if_pos (by omega), if_pos hjl]
        congr 1
        omega
      · rw [if_neg (by omega), if_pos (by omega), if_neg hjl]
    · have h1 := bytesBefore_succ waves i (by omega)
      have h2 := bytesBefore_mono waves (i + 1) m (by omega) (by omega)
      rw [if_pos (by omega)]
      exact ih (by omega) (by omega) (by omega)
theorem paddedConcat_take_succ (waves : List WaveAudio) (m : Nat) (hm : m < waves.length) :
    paddedConcat (waves.take (m + 1)) =
      paddedConcat (waves.take m) ++
        (waveBytes (waves.getD m default) ++ List.replicate 92 (some 0)) := by
  unfold paddedConcat
  rw [List.take_succ, List.flatMap_append, List.getD_eq_getElem?_getD,
    List.getElem?_eq_getElem hm]
  simp

/-- The buffer after `m` waves, read from offset 0 up to `bufPtr`, is the padded
concatenation of the first `m` waves, when nothing has wrapped. -/
theorem smplLoopUpTo_content (waves : List WaveAudio) (m : Nat) (hm : m ≤ waves.length)
    (hfit : bytesBefore waves m < 4294967296) :
    (List.range (bytesBefore waves m)).map (smplLoopUpTo waves m).1
      = paddedConcat (waves.take m) := by
  induction m with
  | zero => simp [bytesBefore, paddedConcat]
  | succ m ih =>
    have hmono := bytesBefore_mono waves m (m + 1) (by omega) hm
    have ih := ih (by omega) (by omega)
    have hstep := smplLoopUpTo_step waves m (by omega) (by omega)
    rw [bytesBefore_succ waves m (by omega), paddedConcat_take_succ waves m (by omega),
      List.range_add, List.map_append, List.range_add, List.map_append, List.map_append,
      List.map_map, List.map_map, List.map_map]
    congr 1
    · rw [← ih]
      apply List.map_congr_left
      intro j hj
      rw [List.mem_range] at hj
      rw [hstep, if_pos hj]
    · congr 1
      · unfold waveBytes
        apply List.map_congr_left
        intro j hj
        rw [List.mem_range] at hj
        simp only [Function.comp]
        rw [hstep, if_neg (by omega), if_pos (by omega)]
        congr 1
        omega
      · have hconst : List.replicate 92 (some (0 : Fin 256))
            = (List.range 92).map (fun _ => some (0 : Fin 256)) := by
          rw [List.map_const', List.length_range]
        rw [hconst]
        apply List.map_congr_left
        intro j hj
        rw [List.mem_range] at hj
        simp only [Function.comp]
        rw [hstep, if_neg (by omega), if_neg (by omega), if_pos (by omega)]

/-- C12, amended with the bound the 32-bit chunk size imposes: for every list of waves
whose padded lengths sum to less than 2^32, the size of the `smpl` chunk is the sum over
all waves of (dataLength + 92) and its content is the concatenation, in wave order, of the
dataLength bytes of each wave followed by 92 zero bytes. -/
theorem smpl_blob (waves : List WaveAudio)
    (hfit : (waves.map (fun wav => wav.dataLength + 92)).sum < 4294967296) :
    (smplCk waves).size = (waves.map (fun wav => wav.dataLength + 92)).sum ∧
    (smplCk waves).records 1 =
      waves.flatMap (fun wav =>
        (List.range wav.dataLength).map (fun j => wav.data.get? j)
          ++ List.replicate 92 (some 0)) := by
  rw [← bytesBefore_length] at hfit ⊢
  have hsize : (smplCk waves).size = bytesBefore waves waves.length := by
    show smplSize waves = _
    rw [smplSize_eq, uint32_of_lt _ hfit]
  refine ⟨hsize, ?_⟩
  have h := smplLoopUpTo_content waves waves.length (Nat.le_refl _) hfit
  rw [List.take_length] at h
  unfold Chunk.records
  rw [hsize, Nat.div_one]
  simp only [Nat.mul_one]
  exact h

theorem smpl_blob_witness :
    (smplCk [waveRoundTrip]).size = ([waveRoundTrip].map (fun wav => wav.dataLength + 92)).sum ∧
    (smplCk [waveRoundTrip]).records 1 =
      [waveRoundTrip].flatMap (fun wav =>
        (List.range wav.dataLength).map (fun j => wav.data.get? j)
          ++ List.replicate 92 (some 0)) :=
  smpl_blob [waveRoundTrip] (by decide)

/-- C12 as stated fails when the sum leaves 32 bits: for one wave of 2^32 - 92 bytes the
computed size of the `smpl` chunk is 0, not 2^32. -/
theorem smpl_blob_counterexample :
    ([waveHuge].map (fun wav => wav.dataLength + 92)).sum = 4294967296 ∧
    (smplCk [waveHuge]).size = 0 := by
  constructor
  · rfl
  · show smplSize [waveHuge] = 0
    rw [smplSize_eq]
    rfl
/-! ## Sample headers against the layout of the sample data -/

theorem two_mul_framesBefore (waves : List WaveAudio) (i : Nat) (hi : i ≤ waves.length)
    (heven : ∀ wav ∈ waves, wav.dataLength % 2 = 0) :
    2 * framesBefore waves i = bytesBefore waves i := by
  induction i with
  | zero => simp [framesBefore, bytesBefore]
  | succ i ih =>
    have ih := ih (by omega)
    have hmem : waves.getD i default ∈ waves := by
      rw [List.getD_eq_getElem _ _ (by omega)]
      exact List.getElem_mem _
    have he := heven _ hmem
    rw [framesBefore_succ waves i (by omega), bytesBefore_succ waves i (by omega)]
    omega

/-- C19, amended with the bound the 32-bit offsets impose: for every list of waves whose
dataLength values are all even and whose padded lengths sum to less than 2^32, whichever
waves are referenced, for every referenced wave i the header agrees with the sample data:
2 * start_i is the byte offset at which the data of wave i begins, 2 * end_i the offset at
which its 92 zero bytes begin, and the chunk holds the bytes of the wave and the zero bytes
at these offsets. -/
theorem shdr_agrees_with_smpl (bankfile : SoundBank) (waves : List WaveAudio) (i : Nat)
    (hi : i < waves.length)
    (heven : ∀ wav ∈ waves, wav.dataLength % 2 = 0)
    (href : ∃ regions ∈ bankfile, ∃ region ∈ regions, region.instrInfo.waveIdx = i)
    (hfit : (waves.map (fun wav => wav.dataLength + 92)).sum < 4294967296) :
    ∃ samp, (shdrCk bankfile waves).data (i * sizeof_sfSample) = some samp ∧
      2 * samp.dwStart = bufPtrAt waves i ∧
      2 * samp.dwEnd = bufPtrAt waves i + (waves.getD i default).dataLength ∧
      (∀ j, j < (waves.getD i default).dataLength →
        (smplCk waves).data (2 * samp.dwStart + j) = (waves.getD i default).data.get? j) ∧
      (∀ j, j < 92 → (smplCk waves).data (2 * samp.dwEnd + j) = some 0) := by
  rw [← bytesBefore_length] at hfit
  have hsucc := bytesBefore_succ waves i hi
  have hmono := bytesBefore_mono waves (i + 1) waves.length (by omega) (Nat.le_refl _)
  have h2 := two_mul_framesBefore waves i (by omega) heven
  have hmem : waves.getD i default ∈ waves := by
    rw [List.getD_eq_getElem _ _ hi]
    exact List.getElem_mem _
  have he := heven _ hmem
  have hptr : bufPtrAt waves i = bytesBefore waves i := by
    rw [bufPtrAt_eq waves i (by omega), uint32_of_lt _ (by omega)]
  rw [shdrCk_data bankfile waves i hi]
  have hsome := (findInstrInfo_isSome_iff bankfile i).mpr href
  obtain ⟨instrInfo, hinfo⟩ := Option.isSome_iff_exists.mp hsome
  have hstart : (sampleHeader waves i instrInfo).dwStart = framesBefore waves i := by
    simp only [sampleHeader]
    exact uint32_of_lt _ (by omega)
  have hend : (sampleHeader waves i instrInfo).dwEnd
      = framesBefore waves i + (waves.getD i default).dataLength / 2 := by
    simp only [sampleHeader]
    exact uint32_of_lt _ (by omega)
  refine ⟨sampleHeader waves i instrInfo, by rw [hinfo]; rfl, ?_, ?_, ?_, ?_⟩
  · rw [hstart, hptr, h2]
  · rw [hend, hptr]
    omega
  · intro j hj
    rw [hstart, h2]
    show (smplLoopUpTo waves waves.length).1 (bytesBefore waves i + j) = _
    rw [smplLoopUpTo_wave waves waves.length (Nat.le_refl _) hfit i hi j (by omega), if_pos hj]
  · intro j hj
    have e : 2 * (sampleHeader waves i instrInfo).dwEnd + j
        = bytesBefore waves i + ((waves.getD i default).dataLength + j) := by
      rw [hend]
      omega
    rw [e]
    show (smplLoopUpTo waves waves.length).1 _ = _
    rw [smplLoopUpTo_wave waves waves.length (Nat.le_refl _) hfit i hi _ (by omega),
      if_neg (by omega)]

theorem shdr_agrees_with_smpl_witness :
    ∃ samp, (shdrCk bankWave1 [waveRoundTrip, waveRoundTrip]).data (1 * sizeof_sfSample)
        = some samp ∧
      2 * samp.dwStart = bufPtrAt [waveRoundTrip, waveRoundTrip] 1 ∧
      2 * samp.dwEnd = bufPtrAt [waveRoundTrip, waveRoundTrip] 1
        + ([waveRoundTrip, waveRoundTrip].getD 1 default).dataLength ∧
      (∀ j, j < ([waveRoundTrip, waveRoundTrip].getD 1 default).dataLength →
        (smplCk [waveRoundTrip, waveRoundTrip]).data (2 * samp.dwStart + j)
          = ([waveRoundTrip, waveRoundTrip].getD 1 default).data.get? j) ∧
      (∀ j, j < 92 →
        (smplCk [waveRoundTrip, waveRoundTrip]).data (2 * samp.dwEnd + j) = some 0) :=
  shdr_agrees_with_smpl bankWave1 [waveRoundTrip, waveRoundTrip] 1 (by decide)
    (by
      intro wav hwav
      have h : wav = waveRoundTrip := by
        rcases List.mem_cons.mp hwav with h | h
        · exact h
        · exact List.mem_singleton.mp h
      rw [h]
      decide)
    ⟨_, List.mem_singleton.mpr rfl, _, List.mem_singleton.mpr rfl, rfl⟩
    (by decide)

/-- C19 as stated fails when the sample data leaves 32 bits: after a wave of 2^32 - 92
bytes, the header of the referenced wave 1 has start 2^31, so 2 * start is 2^32, while
`bufPtr` has wrapped and the data of wave 1 is copied to byte offset 0. -/
theorem shdr_agrees_with_smpl_counterexample :
    waveHuge.dataLength % 2 = 0 ∧ waveRoundTrip.dataLength % 2 = 0 ∧
    (∃ samp, (shdrCk bankWave1 [waveHuge, waveRoundTrip]).data (1 * sizeof_sfSample)
        = some samp ∧ samp.dwStart = 2147483648) ∧
    bufPtrAt [waveHuge, waveRoundTrip] 1 = 0 := by
  refine ⟨by decide, by decide, ?_, ?_⟩
  · rw [shdrCk_data _ _ 1 (by decide)]
    exact ⟨_, rfl, rfl⟩
  · rw [bufPtrAt_eq _ _ (by decide)]
    rfl
/-- The decay table apart from the step from index 114 to 115: its entries at the indices
0..114 are strictly decreasing, and so are its entries at the indices 115..127. -/
theorem decayTable_decreasing_elsewhere :
    (decayTable.take 115).Chain' (fun x y => y < x) ∧
    (decayTable.drop 115).Chain' (fun x y => y < x) :=
  ⟨decayTable_chain_take, decayTable_chain_drop⟩

/-! ## The sustain level -/

/-- Truncation toward zero of a logarithm to base 10: for `1 / 10 ^ (k + 1) < y` and
`y ≤ 1 / 10 ^ k` it is `-k`. -/
theorem toInt_logb_of_le (y : ℝ) (k : Nat) (hlo : 1 / (10 : ℝ) ^ (k + 1) < y)
    (hhi : y ≤ 1 / (10 : ℝ) ^ k) : realOps.toInt (Real.logb 10 y) = -(k : Int) := by
  have hy : 0 < y := lt_trans (by positivity) hlo
  have h10 : (1 : ℝ) < 10 := by norm_num
  have h1 : (-((k : ℝ) + 1)) < Real.logb 10 y := by
    rw [Real.lt_logb_iff_rpow_lt h10 hy, Real.rpow_neg (by norm_num)]
    have e : (10 : ℝ) ^ ((k : ℝ) + 1) = (10 : ℝ) ^ (k + 1) := by
      rw [← Real.rpow_natCast]
      push_cast
      rfl
    rw [e, ← one_div]
    exact hlo
  have h2 : Real.logb 10 y ≤ -(k : ℝ) := by
    rw [Real.logb_le_iff_le_rpow h10 hy, Real.rpow_neg (by norm_num), Real.rpow_natCast,
      ← one_div]
    exact hhi
  simp only [realOps]
  by_cases h0 : (0 : ℝ) ≤ Real.logb 10 y
  · have hk : (k : ℝ) = 0 := by
      have : (0 : ℝ) ≤ (k : ℝ) := Nat.cast_nonneg k
      linarith
    have hx : Real.logb 10 y = 0 := by linarith
    rw [if_pos h0, hx, Int.floor_zero]
    have : k = 0 := by exact_mod_cast hk
    rw [this]
    rfl
  · rw [if_neg h0, Int.ceil_eq_iff]
    constructor
    · push_cast
      linarith
    · push_cast
      exact h2

/-- Truncation toward zero of a logarithm to base 10 of a value between 1 and 10. -/
theorem toInt_logb_of_one_lt (y : ℝ) (hlo : 1 < y) (hhi : y < 10) :
    realOps.toInt (Real.logb 10 y) = 0 := by
  have hy : 0 < y := by linarith
  have h10 : (1 : ℝ) < 10 := by norm_num
  have h1 : 0 < Real.logb 10 y := Real.logb_pos h10 hlo
  have h2 : Real.logb 10 y < 1 := by
    rw [Real.logb_lt_iff_lt_rpow h10 hy, Real.rpow_one]
    exact hhi
  simp only [realOps]
  rw [if_pos (le_of_lt h1), Int.floor_eq_iff]
  constructor
  · push_cast
    exact le_of_lt h1
  · push_cast
    linarith

/-- The integer that `abs` receives in `envelopeFromInfo`, over exact real arithmetic: the
truncation of `log10((sustain/127)^2)`. -/
theorem sustainLog_toInt (s : Nat) (h1 : 1 ≤ s) (h255 : s ≤ 255) :
    realOps.toInt
        (LogB realOps
          (realOps.pow (realOps.div (realOps.ofRat s) (realOps.ofRat 127)) (realOps.ofRat 2))
          (realOps.ofRat 10))
      = if s = 1 then -4 else if s ≤ 4 then -3 else if s ≤ 12 then -2
        else if s ≤ 40 then -1 else 0 := by
  have e : LogB realOps
      (realOps.pow (realOps.div (realOps.ofRat s) (realOps.ofRat 127)) (realOps.ofRat 2))
      (realOps.ofRat 10) = Real.logb 10 ((s : ℝ) ^ 2 / 16129) := by
    simp only [LogB, realOps, Real.logb]
    push_cast
    rw [Real.rpow_two, div_pow]
    norm_num
  rw [e]
  have hs1 : (1 : ℝ) ≤ (s : ℝ) := by exact_mod_cast h1
  have bnd : ∀ a b : Nat, a ≤ s → s ≤ b →
      ((a : ℝ) ^ 2 / 16129 ≤ (s : ℝ) ^ 2 / 16129 ∧
        (s : ℝ) ^ 2 / 16129 ≤ (b : ℝ) ^ 2 / 16129) := by
    intro a b ha hb
    have ha' : (a : ℝ) ≤ (s : ℝ) := by exact_mod_cast ha
    have hb' : (s : ℝ) ≤ (b : ℝ) := by exact_mod_cast hb
    have ha0 : (0 : ℝ) ≤ (a : ℝ) := Nat.cast_nonneg a
    constructor
    · apply div_le_div_of_nonneg_right _ (by norm_num)
      exact pow_le_pow_left₀ ha0 ha' 2
    · apply div_le_div_of_nonneg_right _ (by norm_num)
      exact pow_le_pow_left₀ (by linarith) hb' 2
  by_cases c1 : s = 1
  · rw [if_pos c1]
    obtain ⟨l, u⟩ := bnd 1 1 (by omega) (by omega)
    have := toInt_logb_of_le ((s : ℝ) ^ 2 / 16129) 4
      (lt_of_lt_of_le (by norm_num) l) (le_trans u (by norm_num))
    simpa using this
  · rw [if_neg c1]
    by_cases c2 : s ≤ 4
    · rw [if_pos c2]
      obtain ⟨l, u⟩ := bnd 2 4 (by omega) (by omega)
      have := toInt_logb_of_le ((s : ℝ) ^ 2 / 16129) 3
        (lt_of_lt_of_le (by norm_num) l) (le_trans u (by norm_num))
      simpa using this
    · rw [if_neg c2]
      by_cases c3 : s ≤ 12
      · rw [if_pos c3]
        obtain ⟨l, u⟩ := bnd 5 12 (by omega) (by omega)
        have := toInt_logb_of_le ((s : ℝ) ^ 2 / 16129) 2
          (lt_of_lt_of_le (by norm_num) l) (le_trans u (by norm_num))
        simpa using this
      · rw [if_neg c3]
        by_cases c4 : s ≤ 40
        · rw [if_pos c4]
          obtain ⟨l, u⟩ := bnd 13 40 (by omega) (by omega)
          have := toInt_logb_of_le ((s : ℝ) ^ 2 / 16129) 1
            (lt_of_lt_of_le (by norm_num) l) (le_trans u (by norm_num))
          simpa using this
        · rw [if_neg c4]
          by_cases c5 : s ≤ 127
          · obtain ⟨l, u⟩ := bnd 41 127 (by omega) (by omega)
            have := toInt_logb_of_le ((s : ℝ) ^ 2 / 16129) 0
              (lt_of_lt_of_le (by norm_num) l) (le_trans u (by norm_num))
            simpa using this
          · obtain ⟨l, u⟩ := bnd 128 255 (by omega) (by omega)
            exact toInt_logb_of_one_lt _ (lt_of_lt_of_le (by norm_num) l)
              (lt_of_le_of_lt u (by norm_num))

/-- The value of `sustain_level` over exact real arithmetic, for every byte: 900 at
sustain 0, and 200 times the size of the truncated logarithm otherwise, which makes it one
of 800, 600, 400, 200 and 0. -/
theorem sustain_level_real (info : InstrInfo) :
    (envelopeFromInfo realOps info).sustain_level =
      ((if info.sustain.val = 0 then 900 else if info.sustain.val = 1 then 800
        else if info.sustain.val ≤ 4 then 600 else if info.sustain.val ≤ 12 then 400
        else if info.sustain.val ≤ 40 then 200 else 0 : Int) : ℝ) := by
  by_cases h : info.sustain = 0
  · have hv : info.sustain.val = 0 := by rw [h]; rfl
    rw [if_pos hv]
    simp [envelopeFromInfo, h, realOps]
  · have hv : info.sustain.val ≠ 0 := fun e => h (Fin.ext e)
    have h1 : 1 ≤ info.sustain.val := Nat.pos_of_ne_zero hv
    have h255 : info.sustain.val ≤ 255 := by have := info.sustain.isLt; omega
    have e : (envelopeFromInfo realOps info).sustain_level =
        realOps.ofRat ((200 * |realOps.toInt
          (LogB realOps
            (realOps.pow (realOps.div (realOps.ofRat info.sustain.val) (realOps.ofRat 127))
              (realOps.ofRat 2))
            (realOps.ofRat 10))| : Int) : ℚ) := by
      simp only [envelopeFromInfo, if_neg h]
    rw [e, sustainLog_toInt _ h1 h255, if_neg hv]
    by_cases c1 : info.sustain.val = 1
    · simp [c1, realOps]
    · by_cases c2 : info.sustain.val ≤ 4
      · simp [c1, c2, realOps]
      · by_cases c3 : info.sustain.val ≤ 12
        · simp [c1, c2, c3, realOps]
        · by_cases c4 : info.sustain.val ≤ 40
          · simp [c1, c2, c3, c4, realOps]
          · simp [c1, c2, c3, c4, realOps]

/-- The sustainVolEnv record that `igenRegion` copies, ninth record of a region without
velocity range and tenth of one with. -/
theorem igenRegion_sustain_record {F : Type} (ops : DoubleOps F) (waves : List WaveAudio)
    (instrRegion : InstrumentRegion) (data : Nat → Option sfInstGenList) (dataPtr : Nat) :
    (igenRegion ops waves instrRegion (data, dataPtr)).1
        (dataPtr + (if instrRegion.velHi ≠ 0 then 9 else 8) * sizeof_sfInstGenList)
      = some { sfGenOper := .sustainVolEnv
               genAmount := .shAmount
                 (ops.toInt16 (envelopeFromInfo ops instrRegion.instrInfo).sustain_level) } := by
  rw [igenRegion_eq_emitAll]
  by_cases h : instrRegion.velHi = 0
  · simp only [h, ne_eq, not_true_eq_false, if_false, List.append_nil]
    rw [emitAll_getElem? _ (by decide) _ (data, dataPtr) 8 (by simp [fixedGens])]
    simp [fixedGens]
  · simp only [h, ne_eq, not_false_eq_true, if_true]
    rw [emitAll_getElem? _ (by decide) _ (data, dataPtr) 9 (by simp [fixedGens])]
    simp [fixedGens]

/-- C21: over exact real arithmetic, for every sustain index (every byte, so every index
in 0..127) the `sustain_level` returned by `envelopeFromInfo` lies in [0, 900]: it is 900 at
sustain 0, 800 at 1, 600 at 2..4, 400 at 5..12, 200 at 13..40 and 0 from 41 on, since the
logarithm is truncated to an `int` before `abs`.  So it is 0 at sustain 127, strictly below
900 for every sustain of 1 or more, and 900 exactly when sustain is 0; and the amount of the
sustainVolEnv generator copied for the region, the conversion of that level to `int16_t`,
is the level itself, between 0 and 900: the value fits the 16-bit field. -/
theorem sustain_level_range (waves : List WaveAudio) (instrRegion : InstrumentRegion)
    (data : Nat → Option sfInstGenList) (dataPtr : Nat) :
    0 ≤ (envelopeFromInfo realOps instrRegion.instrInfo).sustain_level ∧
    (envelopeFromInfo realOps instrRegion.instrInfo).sustain_level ≤ 900 ∧
    (instrRegion.instrInfo.sustain = 127 →
      (envelopeFromInfo realOps instrRegion.instrInfo).sustain_level = 0) ∧
    (1 ≤ instrRegion.instrInfo.sustain.val →
      (envelopeFromInfo realOps instrRegion.instrInfo).sustain_level < 900) ∧
    ((envelopeFromInfo realOps instrRegion.instrInfo).sustain_level = 900 ↔
      instrRegion.instrInfo.sustain = 0) ∧
    ∃ a : Int,
      a = (if instrRegion.instrInfo.sustain.val = 0 then 900
        else if instrRegion.instrInfo.sustain.val = 1 then 800
        else if instrRegion.instrInfo.sustain.val ≤ 4 then 600
        else if instrRegion.instrInfo.sustain.val ≤ 12 then 400
        else if instrRegion.instrInfo.sustain.val ≤ 40 then 200 else 0) ∧
      (envelopeFromInfo realOps instrRegion.instrInfo).sustain_level = (a : ℝ) ∧
      (igenRegion realOps waves instrRegion (data, dataPtr)).1
          (dataPtr + (if instrRegion.velHi ≠ 0 then 9 else 8) * sizeof_sfInstGenList)
        = some { sfGenOper := .sustainVolEnv, genAmount := .shAmount a } ∧
      0 ≤ a ∧ a ≤ 900 ∧ -32768 ≤ a ∧ a ≤ 32767 := by
  have e := sustain_level_real instrRegion.instrInfo
  generalize hL : (envelopeFromInfo realOps instrRegion.instrInfo).sustain_level = level at e
  generalize ha : (if instrRegion.instrInfo.sustain.val = 0 then (900 : Int)
        else if instrRegion.instrInfo.sustain.val = 1 then 800
        else if instrRegion.instrInfo.sustain.val ≤ 4 then 600
        else if instrRegion.instrInfo.sustain.val ≤ 12 then 400
        else if instrRegion.instrInfo.sustain.val ≤ 40 then 200 else 0) = a at e
  have hs0 : instrRegion.instrInfo.sustain = 0 ↔ instrRegion.instrInfo.sustain.val = 0 :=
    ⟨fun h => by rw [h]; rfl, fun h => Fin.ext h⟩
  have hrange : 0 ≤ a ∧ a ≤ 900 := by
    rw [← ha]
    split_ifs <;> norm_num
  have h900 : a = 900 ↔ instrRegion.instrInfo.sustain.val = 0 := by
    rw [← ha]
    split_ifs with c <;> simp [c]
  have h127 : instrRegion.instrInfo.sustain = 127 → a = 0 := by
    intro h
    have hv : instrRegion.instrInfo.sustain.val = 127 := by rw [h]; rfl
    rw [← ha, hv]
    rfl
  refine ⟨?_, ?_, ?_, ?_, ?_, a, rfl, e, ?_, hrange.1, hrange.2, by omega, by omega⟩
  · rw [e]; exact_mod_cast hrange.1
  · rw [e]; exact_mod_cast hrange.2
  · intro h
    rw [e, h127 h]
    norm_num
  · intro h1
    have hne : a ≠ 900 := fun h => by
      have := h900.mp h
      omega
    have hlt : a < 900 := lt_of_le_of_ne hrange.2 hne
    rw [e]
    exact_mod_cast hlt
  · rw [e]
    constructor
    · intro h
      exact hs0.mpr (h900.mp (by exact_mod_cast h))
    · intro h
      rw [h900.mpr (hs0.mp h)]
      norm_num
  · rw [igenRegion_sustain_record, hL, e, realOps_toInt16_intCast a (by omega)]

end SF2File
